import Mathlib

/-!
# Verification of the syncwich activity download pipeline

A shallow embedding, in Lean 4, of the algorithmic core of the syncwich /
runalyzedump repository: date parsing and validation, activity-type
classification, the backward week iterator, the download engine with format
fallback, and the persistent cookie jar.  Each Go function is translated to an
executable Lean definition; effects (web client, file system) are modelled by
explicit oracles plus a trace of the capability calls issued.

Conventions used throughout:
* Go `string` becomes Lean `String`; character-level work is done on
  `List Char` (`String.data`).
* Go byte slices become `List Nat`.
* A Go `error` value is modelled by its rendered message (`String`), because
  the code under study compares errors via `fmt.Sprintf("%v", err)`.
* Calendar instants are whole days (`Nat` day numbers in the proleptic
  Gregorian calendar, day 1 = 0000-01-01); the Go code only ever constructs
  midnight instants for dates.  Where sub-day resolution matters
  (`ValidateAndParseDates` subtracts `time.Duration`s), instants are measured
  in nanoseconds (`Int`).
-/

deriving instance DecidableEq for Except

namespace Syncwich

/-! ## String utilities

`strings.ToLower`, `strings.Contains`, and the restricted regular-expression
forms used by the repository (`icon.{0,3}running`, `regular.biking`,
`sports-mode`, and `\b<literal>\b` word matching in RE2, whose `.` matches any
character except newline and whose word characters are ASCII `[0-9A-Za-z_]`).
Lean's `Char.toLower` lowers ASCII letters only; every pattern and keyword in
the repository is ASCII, so this agrees with `strings.ToLower` on all inputs
the patterns can distinguish. -/

/-- Lower-cased character list of a string (models `strings.ToLower`). -/
def toLowerList (s : String) : List Char :=
  s.data.map Char.toLower

/-- `pat` occurs in `s` starting exactly at index `i`. -/
def matchesAt (pat s : List Char) (i : Nat) : Bool :=
  (s.drop i).take pat.length == pat

/-- `strings.Contains s pat`: `pat` occurs somewhere in `s`. -/
def containsSub (s pat : List Char) : Bool :=
  (List.range (s.length + 1)).any (matchesAt pat s)

/-- RE2 `icon.{0,3}running`, unanchored: `"icon"`, then at most three
characters none of which is a newline, then `"running"`. -/
def matchIconRunning (s : List Char) : Bool :=
  (List.range (s.length + 1)).any fun i =>
    matchesAt "icon".data s i &&
    (List.range 4).any fun g =>
      matchesAt "running".data s (i + 4 + g) &&
      ((s.drop (i + 4)).take g).all (· ≠ '\n')

/-- RE2 `regular.biking`, unanchored: `"regular"`, one non-newline character,
then `"biking"`. -/
def matchRegularBiking (s : List Char) : Bool :=
  (List.range (s.length + 1)).any fun i =>
    matchesAt "regular".data s i &&
    (s.get? (i + 7)).any (· ≠ '\n') &&
    matchesAt "biking".data s (i + 8)

/-- RE2 word character: ASCII letter, digit, or underscore. -/
def isWordChar (c : Char) : Bool :=
  c.isAlphanum || c == '_'

/-- The literal keyword `kw` occurs at index `i` of `s` with a word boundary
on each side (models an RE2 match of `\b<kw>\b` starting at `i`; every keyword
in the repository starts and ends with a word character). -/
def wordMatchAt (s kw : List Char) (i : Nat) : Bool :=
  matchesAt kw s i &&
  (i == 0 || (s.get? (i - 1)).all (fun c => !isWordChar c)) &&
  (s.get? (i + kw.length)).all (fun c => !isWordChar c)

/-- `regexp.MatchString` for `\b<kw>\b`: some word-bounded occurrence exists. -/
def hasWordMatch (s kw : List Char) : Bool :=
  (List.range (s.length + 1)).any (wordMatchAt s kw)

/-- `regexp.FindStringIndex` for `\b<kw>\b`: index of the leftmost
word-bounded occurrence, if any. -/
def firstWordMatchPos (s kw : List Char) : Option Nat :=
  (List.range (s.length + 1)).find? (wordMatchAt s kw)

/-! ## Calendar model

Proleptic Gregorian dates as day numbers: day 1 = 0000-01-01 (a Saturday).
The repository only handles four-digit years, so `Nat` arithmetic is exact.
Weekdays use Go's `time.Weekday` numbering (Sunday = 0, Monday = 1, ...). -/

/-- Gregorian leap-year rule (as in Go's `time` package). -/
def isLeapYear (y : Nat) : Bool :=
  (y % 4 == 0 && y % 100 != 0) || y % 400 == 0

/-- Number of days in month `m` (1-12) of year `y`. -/
def daysInMonth (y m : Nat) : Nat :=
  if m == 2 then (if isLeapYear y then 29 else 28)
  else if m == 4 || m == 6 || m == 9 || m == 11 then 30
  else 31

/-- Days in year `y` strictly before the first of month `m` (1-12). -/
def daysBeforeMonth (y m : Nat) : Nat :=
  let leapExtra := if isLeapYear y then 1 else 0
  match m with
  | 1 => 0
  | 2 => 31
  | 3 => 59 + leapExtra
  | 4 => 90 + leapExtra
  | 5 => 120 + leapExtra
  | 6 => 151 + leapExtra
  | 7 => 181 + leapExtra
  | 8 => 212 + leapExtra
  | 9 => 243 + leapExtra
  | 10 => 273 + leapExtra
  | 11 => 304 + leapExtra
  | _ => 334 + leapExtra

/-- Days in all years strictly before year `y` (year 0 is a leap year). -/
def daysBeforeYear (y : Nat) : Nat :=
  if y == 0 then 0
  else 365 * y + 1 + (y - 1) / 4 - (y - 1) / 100 + (y - 1) / 400

/-- Day number of the calendar date `y-m-d` (day 1 = 0000-01-01). -/
def dayNumber (y m d : Nat) : Nat :=
  daysBeforeYear y + daysBeforeMonth y m + d

/-- Go `time.Weekday` of a day number (Sunday = 0, ..., Saturday = 6);
0000-01-01 (day 1) was a Saturday. -/
def weekdayOf (n : Nat) : Nat :=
  (n + 5) % 7

/-! ## Date parsing (`sw/dates.go`, duplicated in `cmd/root.go`)

`parseUntilDate` tries the layouts `2006-01-02`, `2006-01`, `2006` in order
(each layout demands fixed-width zero-padded digit fields and a fully consumed
input, and `time.Parse` range-checks month and day), completes a month to its
last day and a year to December 31st, and then normalizes to the Monday
on-or-after the result, truncated to midnight.  Since the model carries whole
days only, the midnight truncation performed by `time.Date(..., 0, 0, 0, 0, ...)`
is implicit.  Failure (`error` return) is modelled by `none`. -/

/-- Numeric value of an ASCII digit. -/
def digitVal (c : Char) : Nat :=
  c.toNat - '0'.toNat

/-- The base date obtained from the three `time.Parse` attempts plus the
month/year completion, before Monday normalization: `YYYY-MM-DD` as itself,
`YYYY-MM` as the last day of that month, `YYYY` as December 31st. -/
def parseBaseDate (s : String) : Option Nat :=
  match s.data with
  | [y1, y2, y3, y4, '-', m1, m2, '-', d1, d2] =>
    if [y1, y2, y3, y4, m1, m2, d1, d2].all Char.isDigit then
      let y := 1000 * digitVal y1 + 100 * digitVal y2 + 10 * digitVal y3 + digitVal y4
      let m := 10 * digitVal m1 + digitVal m2
      let d := 10 * digitVal d1 + digitVal d2
      if 1 ≤ m && m ≤ 12 && 1 ≤ d && d ≤ daysInMonth y m then
        some (dayNumber y m d)
      else none
    else none
  | [y1, y2, y3, y4, '-', m1, m2] =>
    if [y1, y2, y3, y4, m1, m2].all Char.isDigit then
      let y := 1000 * digitVal y1 + 100 * digitVal y2 + 10 * digitVal y3 + digitVal y4
      let m := 10 * digitVal m1 + digitVal m2
      if 1 ≤ m && m ≤ 12 then
        -- time.Date(y, m+1, 0, ...): day zero of the next month, i.e. the
        -- last day of month m (normalized by Go's time.Date).
        some (dayNumber y m (daysInMonth y m))
      else none
    else none
  | [y1, y2, y3, y4] =>
    if [y1, y2, y3, y4].all Char.isDigit then
      let y := 1000 * digitVal y1 + 100 * digitVal y2 + 10 * digitVal y3 + digitVal y4
      -- time.Date(y, 12, 31, ...): last day of the year.
      some (dayNumber y 12 31)
    else none
  | _ => none

/-- `parseUntilDate`: parse the date, then return it if it is already a
Monday, otherwise add `(8 - weekday) % 7` days to reach the next Monday. -/
def parseUntilDate (s : String) : Option Nat :=
  match parseBaseDate s with
  | none => none
  | some t =>
    if weekdayOf t == 1 then some t
    else some (t + (8 - weekdayOf t) % 7)

/-- Nanoseconds per day (`24 * time.Hour`). -/
def nsPerDay : Int := 86400000000000

/-- Largest value accepted by `strconv.Atoi` on a 64-bit platform. -/
def int64Max : Int := 9223372036854775807

/-- Wrap an integer to the signed 64-bit range, as Go's `time.Duration`
multiplication does on overflow. -/
def wrapInt64 (n : Int) : Int :=
  Int.emod (n + 9223372036854775808) 18446744073709551616 - 9223372036854775808

/-- Digit run to its numeric value. -/
def digitsToNat (ds : List Char) : Nat :=
  ds.foldl (fun acc c => 10 * acc + digitVal c) 0

/-- `parseDuration`: a simplified duration string matching
`^([0-9]+)([ywdm])$`, returned as a `time.Duration` (nanoseconds, with 64-bit
wraparound).  `strconv.Atoi` rejects values beyond the `int64` range; `y`
means 365 days, `w` 7 days, `d` one day, `m` 30 days. -/
def parseDuration (s : String) : Option Int :=
  let ds := s.data.dropLast
  let unit := s.data.getLast?
  if ds.length ≥ 1 && ds.all Char.isDigit then
    match unit with
    | some u =>
      if u == 'y' || u == 'w' || u == 'd' || u == 'm' then
        let value : Int := digitsToNat ds
        if value > int64Max then none
        else
          let days : Int := if u == 'y' then 365 else if u == 'w' then 7
            else if u == 'd' then 1 else 30
          some (wrapInt64 (value * days * nsPerDay))
      else none
    | none => none
  else none

/-- `parseSinceDate` (the `sw` variant): a duration is interpreted relative
to the until instant, anything else through `parseUntilDate`. -/
def parseSinceDate (s : String) (untilNs : Int) : Option Int :=
  match parseDuration s with
  | some dur => some (untilNs - dur)
  | none => (parseUntilDate s).map (fun n => (n : Int) * nsPerDay)

/-- The three distinct error returns of `ValidateAndParseDates`. -/
inductive DateError where
  /-- "failed to parse until date: ..." -/
  | untilParse
  /-- "failed to parse since date: ..." -/
  | sinceParse
  /-- "--since date (...) must be before --until date (...)" -/
  | validation
  deriving DecidableEq, Repr

/-- The `(since, until)` pair computed by `ValidateAndParseDates` before its
final ordering check, as nanosecond instants.  `nowDay` is the day number of
`time.Now()` (used only by the two default branches; the code truncates the
defaults to midnight, so a whole day suffices). -/
def computeDatePair (nowDay : Nat) (untilStr sinceStr : String) :
    Except DateError (Int × Int) :=
  let untilRes : Except DateError Int :=
    if untilStr ≠ "" then
      match parseUntilDate untilStr with
      | none => .error .untilParse
      | some n => .ok ((n : Int) * nsPerDay)
    else
      .ok (((nowDay + (8 - weekdayOf nowDay) % 7 : Nat) : Int) * nsPerDay)
  match untilRes with
  | .error e => .error e
  | .ok untilNs =>
    if sinceStr ≠ "" then
      match parseSinceDate sinceStr untilNs with
      | none => .error .sinceParse
      | some sinceNs => .ok (sinceNs, untilNs)
    else
      -- parseDuration "4w" = 4 * 7 * 24h
      .ok (untilNs - 2419200000000000, untilNs)

/-- `ValidateAndParseDates`: parse both bounds, then reject the pair unless
`since` is strictly before `until` (`since.After(until) || since.Equal(until)`
is the error condition). -/
def ValidateAndParseDates (nowDay : Nat) (untilStr sinceStr : String) :
    Except DateError (Int × Int) :=
  match computeDatePair nowDay untilStr sinceStr with
  | .error e => .error e
  | .ok (sinceNs, untilNs) =>
    if sinceNs > untilNs || sinceNs == untilNs then .error .validation
    else .ok (sinceNs, untilNs)

/-! ## Download engine (`rd/download_service.go`, `rd/download.go`)

`DownloadService.DownloadActivity` depends on two injected capabilities: a
`RunalyzeClient` (here `ClientModel`: `GetFit`/`GetTcx` return bytes plus a
suggested filename, or an error) and a `FileSystem` (here the association list
`files` of existing paths with contents, plus a `writeErr` oracle saying
whether a `WriteFile` call fails).  Every capability invocation is recorded in
a `Call` trace so that "no network call is made" is a statement about the
trace. -/

/-- One capability call issued by the download engine. -/
inductive Call where
  /-- `fs.Exists(path)` -/
  | existsCheck (path : String)
  /-- `client.GetFit(id)` -/
  | getFit (id : String)
  /-- `client.GetTcx(id)` -/
  | getTcx (id : String)
  /-- `fs.WriteFile(path, data, 0644)` -/
  | writeFile (path : String) (data : List Nat)
  deriving DecidableEq, Repr

/-- Web-client capability calls (as opposed to file-system calls). -/
def Call.isClientCall : Call → Bool
  | .getFit _ => true
  | .getTcx _ => true
  | _ => false

/-- File-system write calls. -/
def Call.isWriteCall : Call → Bool
  | .writeFile _ _ => true
  | _ => false

/-- Abstract `RunalyzeClient` restricted to the operations the download
engine uses: each export returns bytes and a suggested filename, or an error
(rendered message). -/
structure ClientModel where
  getFit : String → Except String (List Nat × String)
  getTcx : String → Except String (List Nat × String)

/-- Write-failure oracle of the abstract `FileSystem`: `none` means the write
succeeds, `some msg` that it fails with the given rendered error. -/
structure FSModel where
  writeErr : String → List Nat → Option String

/-- Contents of the file system: existing paths with their bytes. -/
abbrev FSState := List (String × List Nat)

/-- `fs.Exists(path)`. -/
def fsExists (files : FSState) (path : String) : Bool :=
  files.any (fun f => f.1 == path)

/-- `ActivityInfo` (the `rd` shape): ID, raw type classifier, resolved emoji,
and the Monday/Sunday day numbers of the week it was found in.  Its Go zero
value is `zeroActivityInfo`. -/
structure ActivityInfo where
  id : String
  type : String
  typeEmoji : String
  weekStart : Int
  weekEnd : Int
  deriving DecidableEq, Repr

/-- The Go zero value `ActivityInfo{}`. -/
def zeroActivityInfo : ActivityInfo :=
  { id := "", type := "", typeEmoji := "", weekStart := 0, weekEnd := 0 }

/-- `DownloadResult`; omitted fields of the Go struct literals are zero values
(`""`, `nil`, `false`), modelled as `""`, `none`, `false`. -/
structure DownloadResult where
  activityID : String
  success : Bool
  fileType : String
  filePath : String
  error : Option String
  existed : Bool
  deriving DecidableEq, Repr

/-- `isNotFoundError`: `nil` is not a 404; otherwise the rendered message
must be exactly `"unexpected status code: 404"`. -/
def isNotFoundError : Option String → Bool
  | none => false
  | some e => e == "unexpected status code: 404"

/-- `filepath.Join(dir, name)` for the already-clean inputs the engine
produces (a cleaned directory joined with `<activityID>.<ext>`). -/
def filepathJoin (dir name : String) : String :=
  if dir == "" then name else dir ++ "/" ++ name

/-- The primary-format candidate path `filepath.Join(saveDir, activity.ID + ".fit")`. -/
def fitPathOf (activityID saveDir : String) : String :=
  filepathJoin saveDir (activityID ++ ".fit")

/-- The fallback-format candidate path `filepath.Join(saveDir, activity.ID + ".tcx")`. -/
def tcxPathOf (activityID saveDir : String) : String :=
  filepathJoin saveDir (activityID ++ ".tcx")

/-- `DownloadService.DownloadActivity`: skip if either candidate file exists;
otherwise FIT export, falling back to TCX only on the 404 condition; write
the received bytes.  Returns the structured result, the capability-call
trace (in issue order), and the resulting file-system contents. -/
def DownloadActivity (client : ClientModel) (fs : FSModel) (files : FSState)
    (activity : ActivityInfo) (saveDir : String) :
    DownloadResult × List Call × FSState :=
  let fitPath := fitPathOf activity.id saveDir
  let tcxPath := tcxPathOf activity.id saveDir
  if fsExists files fitPath then
    ({ activityID := activity.id, success := true, fileType := "FIT",
       filePath := fitPath, error := none, existed := true },
     [.existsCheck fitPath], files)
  else if fsExists files tcxPath then
    ({ activityID := activity.id, success := true, fileType := "TCX",
       filePath := tcxPath, error := none, existed := true },
     [.existsCheck fitPath, .existsCheck tcxPath], files)
  else
    let checks : List Call := [.existsCheck fitPath, .existsCheck tcxPath]
    match client.getFit activity.id with
    | .error fitErr =>
      if isNotFoundError (some fitErr) then
        match client.getTcx activity.id with
        | .error tcxErr =>
          if isNotFoundError (some tcxErr) then
            ({ activityID := activity.id, success := false, fileType := "NONE",
               filePath := "",
               error := some ("neither FIT nor TCX available for activity " ++ activity.id),
               existed := false },
             checks ++ [.getFit activity.id, .getTcx activity.id], files)
          else
            ({ activityID := activity.id, success := false, fileType := "TCX",
               filePath := "",
               error := some ("failed to download TCX file for activity " ++ activity.id ++ ": " ++ tcxErr),
               existed := false },
             checks ++ [.getFit activity.id, .getTcx activity.id], files)
        | .ok (tcxData, _) =>
          match fs.writeErr tcxPath tcxData with
          | some wErr =>
            ({ activityID := activity.id, success := false, fileType := "TCX",
               filePath := "",
               error := some ("failed to save TCX file for activity " ++ activity.id ++ ": " ++ wErr),
               existed := false },
             checks ++ [.getFit activity.id, .getTcx activity.id, .writeFile tcxPath tcxData], files)
          | none =>
            ({ activityID := activity.id, success := true, fileType := "TCX",
               filePath := tcxPath, error := none, existed := false },
             checks ++ [.getFit activity.id, .getTcx activity.id, .writeFile tcxPath tcxData],
             files ++ [(tcxPath, tcxData)])
      else
        ({ activityID := activity.id, success := false, fileType := "FIT",
           filePath := "",
           error := some ("failed to download FIT file for activity " ++ activity.id ++ ": " ++ fitErr),
           existed := false },
         checks ++ [.getFit activity.id], files)
    | .ok (fitData, _) =>
      match fs.writeErr fitPath fitData with
      | some wErr =>
        ({ activityID := activity.id, success := false, fileType := "FIT",
           filePath := "",
           error := some ("failed to save FIT file for activity " ++ activity.id ++ ": " ++ wErr),
           existed := false },
         checks ++ [.getFit activity.id, .writeFile fitPath fitData], files)
      | none =>
        ({ activityID := activity.id, success := true, fileType := "FIT",
           filePath := fitPath, error := none, existed := false },
         checks ++ [.getFit activity.id, .writeFile fitPath fitData],
         files ++ [(fitPath, fitData)])

/-! ## Activity-type classification

Two parallel implementations exist in the repository.

* `rd/activity_parser.go` (`getActivityTypeEmoji`, `getActivityTypeFromHTML`):
  the three icon regexes are tested in fixed textual order
  (running, biking, sports-mode) followed by fixed substring checks; the
  keyword fallback iterates a Go *map* of ten alternation patterns — whose
  iteration order is unspecified — and returns the first category with any
  word-bounded match, then runs six further substring checks in fixed order.
* `sw/activity_types.go` (`ActivityTypeDetector.DetectActivityType`,
  `detectFromHTML`): the three icon regexes live in a Go *map* (unspecified
  iteration order) followed by the same fixed substring checks; the keyword
  fallback scans a sixteen-category map and picks the category whose synonym
  has the lowest word-bounded match offset (strict `<`, so order matters only
  for exact ties).

Wherever the source iterates a map, the model takes the iteration order as an
explicit parameter, quantified over permutations of the table in the theorems;
the `...Src` wrappers fix the source-literal order as one representative. -/

/-- The three icon-class regexes shared by both implementations. -/
inductive IconRule where
  | running
  | biking
  | sports
  deriving DecidableEq, Repr

/-- Whether an icon rule's regex matches the (lower-cased) class token. -/
def iconRuleMatches (r : IconRule) (t : List Char) : Bool :=
  match r with
  | .running => matchIconRunning t
  | .biking => matchRegularBiking t
  | .sports => containsSub t "sports-mode".data

/-- Emoji returned by an icon rule. -/
def iconRuleEmoji : IconRule → String
  | .running => "🏃"
  | .biking => "🚴"
  | .sports => "🤸"

/-- The fixed substring checks both implementations run after the regexes
(swim → 🏊, hike/walk → 🥾, ski → ⛷️, gym/strength → 💪), in source order. -/
def iconSubstringChecks (t : List Char) : Option String :=
  if containsSub t "swimming".data || containsSub t "swim".data then some "🏊"
  else if containsSub t "hiking".data || containsSub t "walk".data then some "🥾"
  else if containsSub t "ski".data then some "⛷️"
  else if containsSub t "gym".data || containsSub t "strength".data then some "💪"
  else none

/-- The `rd` keyword table (`sportKeywords` in `getActivityTypeFromHTML`):
ten categories, each an alternation of whole-word synonyms, in source-literal
order.  Go iterates this map in unspecified order. -/
def rdSportKeywords : List (String × List String) :=
  [("🏃", ["running", "run", "jog", "jogging", "marathon", "5k", "10k", "half marathon"]),
   ("🚴", ["cycling", "cycle", "bike", "biking", "bicycle", "mtb", "road bike", "mountain bike"]),
   ("🏊", ["swimming", "swim", "pool", "freestyle", "backstroke", "breaststroke", "butterfly"]),
   ("⛷️", ["skiing", "ski", "alpine", "downhill", "cross country", "nordic", "snowboard", "snowboarding"]),
   ("🥾", ["hiking", "hike", "walk", "walking", "trekking", "trail", "nature walk"]),
   ("💪", ["gym", "strength", "weight", "lifting", "bodybuilding", "fitness", "workout", "training", "crossfit"]),
   ("⚽", ["football", "soccer", "futbol", "match", "league", "pitch"]),
   ("🏀", ["basketball", "basket", "court", "dribble", "shoot", "dunk"]),
   ("🎾", ["tennis", "court", "racket", "serve", "match", "set"]),
   ("🚣", ["rowing", "row", "kayak", "canoe", "paddle", "boat", "crew"])]

/-- `getActivityTypeFromHTML` (`rd`), with the map iteration order of
`sportKeywords` made explicit: lower-case the HTML, return the first category
in `order` one of whose synonyms has a word-bounded match anywhere, otherwise
run the six fixed substring checks, otherwise `❓`. -/
def getActivityTypeFromHTMLOrdered (order : List (String × List String))
    (htmlContent : String) : String :=
  let content := toLowerList htmlContent
  match order.find? (fun e => e.2.any (fun kw => hasWordMatch content kw.data)) with
  | some e => e.1
  | none =>
    if containsSub content "yoga".data then "🧘"
    else if containsSub content "golf".data then "⛳"
    else if containsSub content "climbing".data || containsSub content "boulder".data then "🧗"
    else if containsSub content "skateboard".data || containsSub content "skate".data then "🛹"
    else if containsSub content "baseball".data then "⚾"
    else if containsSub content "volleyball".data then "🏐"
    else "❓"

/-- `getActivityTypeFromHTML` at the source-literal table order. -/
def getActivityTypeFromHTMLSrc (htmlContent : String) : String :=
  getActivityTypeFromHTMLOrdered rdSportKeywords htmlContent

/-- `getActivityTypeEmoji` (`rd`), with the keyword-map order explicit: the
three icon regexes in fixed source order, the fixed substring checks, then the
keyword fallback when `fallbackHTML` is nonempty, else `❓`. -/
def getActivityTypeEmojiOrdered (order : List (String × List String))
    (activityType fallbackHTML : String) : String :=
  let t := toLowerList activityType
  if matchIconRunning t then "🏃"
  else if matchRegularBiking t then "🚴"
  else if containsSub t "sports-mode".data then "🤸"
  else
    match iconSubstringChecks t with
    | some e => e
    | none =>
      if fallbackHTML ≠ "" then getActivityTypeFromHTMLOrdered order fallbackHTML
      else "❓"

/-- `getActivityTypeEmoji` at the source-literal table order. -/
def getActivityTypeEmoji (activityType fallbackHTML : String) : String :=
  getActivityTypeEmojiOrdered rdSportKeywords activityType fallbackHTML

/-- The `sw` keyword table (`keywords` in `NewActivityTypeDetector`): sixteen
categories with whole-word synonym lists, in source-literal order.  Go
iterates this map in unspecified order. -/
def swKeywordTable : List (String × List String) :=
  [("🏃", ["running", "run", "jog", "jogging", "marathon", "5k", "10k", "half marathon"]),
   ("🚴", ["cycling", "cycle", "bike", "biking", "bicycle", "mtb", "road bike", "mountain bike"]),
   ("🏊", ["swimming", "swim", "pool", "freestyle", "backstroke", "breaststroke", "butterfly"]),
   ("⛷️", ["skiing", "ski", "alpine", "downhill", "cross country", "nordic", "snowboard", "snowboarding"]),
   ("🥾", ["hiking", "hike", "walk", "walking", "trekking", "trail", "nature walk"]),
   ("💪", ["gym", "strength", "weight", "lifting", "bodybuilding", "fitness", "workout", "training", "crossfit"]),
   ("⚽", ["football", "soccer", "futbol", "match", "league", "pitch"]),
   ("🏀", ["basketball", "basket", "court", "dribble", "shoot", "dunk"]),
   ("🎾", ["tennis", "court", "racket", "serve", "match", "set"]),
   ("🚣", ["rowing", "row", "kayak", "canoe", "paddle", "boat", "crew"]),
   ("🧘", ["yoga"]),
   ("⛳", ["golf"]),
   ("🧗", ["climbing", "boulder"]),
   ("🛹", ["skateboard", "skate"]),
   ("⚾", ["baseball"]),
   ("🏐", ["volleyball"])]

/-- One keyword step of `ActivityTypeDetector.detectFromHTML`: keep the
accumulator `(earliestPosition, matchedEmoji)` unless this keyword's leftmost
word-bounded match is strictly earlier. -/
def detectKwStep (content : List Char) (emoji : String)
    (acc : Nat × String) (kw : String) : Nat × String :=
  match firstWordMatchPos content kw.data with
  | some p => if p < acc.1 then (p, emoji) else acc
  | none => acc

/-- The scan over one category's synonym list. -/
def detectEntryStep (content : List Char) (acc : Nat × String)
    (e : String × List String) : Nat × String :=
  e.2.foldl (detectKwStep content e.1) acc

/-- `ActivityTypeDetector.detectFromHTML` (`sw`), with the map iteration order
of `keywords` made explicit: track the earliest word-bounded match position
across every category and synonym, starting from `(len + 1, "")`; return the
winning emoji, or `❓` when nothing matched. -/
def detectFromHTMLOrdered (order : List (String × List String))
    (htmlContent : String) : String :=
  let content := toLowerList htmlContent
  let res := order.foldl (detectEntryStep content) (content.length + 1, "")
  if res.2 ≠ "" then res.2 else "❓"

/-- `detectFromHTML` at the source-literal table order. -/
def detectFromHTMLSrc (htmlContent : String) : String :=
  detectFromHTMLOrdered swKeywordTable htmlContent

/-- `ActivityTypeDetector.DetectActivityType` (`sw`), with both map iteration
orders explicit: the first icon regex (in `iconOrder`) matching the
lower-cased token wins; then the fixed substring checks; then the keyword
fallback when `fallbackHTML` is nonempty; else `❓`. -/
def DetectActivityTypeOrdered (iconOrder : List IconRule)
    (kwOrder : List (String × List String))
    (activityType fallbackHTML : String) : String :=
  let t := toLowerList activityType
  match iconOrder.find? (fun r => iconRuleMatches r t) with
  | some r => iconRuleEmoji r
  | none =>
    match iconSubstringChecks t with
    | some e => e
    | none =>
      if fallbackHTML ≠ "" then detectFromHTMLOrdered kwOrder fallbackHTML
      else "❓"

/-- `DetectActivityType` at the source-literal map orders. -/
def DetectActivityTypeSrc (activityType fallbackHTML : String) : String :=
  DetectActivityTypeOrdered [.running, .biking, .sports] swKeywordTable
    activityType fallbackHTML

/-! ## Week iterator (`rd/activity_iterator.go`)

`ActivityIterator` pulls pages backward week by week.  The composite of
`client.GetDataBrowser` and `parseActivitiesFromHTML` (whose parse failure
falls back to the id-regex scan and therefore never propagates an error) is
modelled by one oracle `WeekEnv`: for a Monday day number it yields either the
extracted `ActivityInfo` list or the fetch error.  The model covers iterators
built with `NewActivityIteratorWithSince` (a set `sinceDate`, so
`!it.sinceDate.IsZero()` holds), which is how the orchestrator builds them;
`untilDate` is an `Int` since it is decremented without bound.  `next` also
returns the list of weeks fetched during the call, so that "no further
web-client call" is a statement about that trace. -/

/-- Fetch-and-extract oracle: `GetDataBrowser` composed with the extractor. -/
def WeekEnv := Int → Except String (List ActivityInfo)

/-- Iterator state (`done`, buffered week, read offset, cursor, lower bound). -/
structure ItState where
  untilDate : Int
  sinceDate : Int
  done : Bool
  activities : List ActivityInfo
  activityIndex : Nat
  deriving Repr

/-- `NewActivityIteratorWithSince client untilDate sinceDate`. -/
def newIterator (untilDate sinceDate : Int) : ItState :=
  { untilDate := untilDate, sinceDate := sinceDate, done := false,
    activities := [], activityIndex := 0 }

/-- `fetchActivitiesForWeek`: terminate at the since-bound, otherwise fetch
the current week, replace the buffer, reset the offset, and step the cursor
back seven days.  A fetch error propagates; nothing else does (an extractor
error is absorbed by the regex fallback inside the oracle).  The second
component is the list of `GetDataBrowser` calls issued (none at the bound,
otherwise the current cursor week). -/
def fetchActivitiesForWeek (env : WeekEnv) (st : ItState) :
    Except String ItState × List Int :=
  if st.untilDate < st.sinceDate then
    (.ok { st with done := true }, [])
  else
    match env st.untilDate with
    | .error e => (.error e, [st.untilDate])
    | .ok acts =>
      (.ok { st with activities := acts, activityIndex := 0,
                     untilDate := st.untilDate - 7 }, [st.untilDate])

/-- Termination measure for `next`: once `done` is set the call returns at
once; otherwise each empty-week recursion moves `untilDate` down by 7 toward
`sinceDate`. -/
def itMeasure (st : ItState) : Nat :=
  if st.done then 0 else (st.untilDate + 7 - st.sinceDate).toNat + 1

/-- A successful `fetchActivitiesForWeek` either hit the since-bound (setting
`done`) or stepped the cursor back one week. -/
theorem fetch_shape {env : WeekEnv} {st st' : ItState} {tr : List Int}
    (h : fetchActivitiesForWeek env st = (.ok st', tr)) :
    (st.untilDate < st.sinceDate ∧ st' = { st with done := true }) ∨
    (¬st.untilDate < st.sinceDate ∧ st'.untilDate = st.untilDate - 7 ∧
      st'.sinceDate = st.sinceDate ∧ st'.done = st.done) := by
  unfold fetchActivitiesForWeek at h
  by_cases hb : st.untilDate < st.sinceDate
  · simp [hb] at h
    exact Or.inl ⟨hb, h.1.symm⟩
  · simp [hb] at h
    cases henv : env st.untilDate with
    | error e => rw [henv] at h; simp at h
    | ok acts =>
      rw [henv] at h
      simp at h
      refine Or.inr ⟨hb, ?_, ?_, ?_⟩ <;> rw [← h.1]

/-- `ActivityIterator.Next`: yield from the buffer; when the buffer is
exhausted, fetch (terminating permanently on a fetch error), transparently
recursing past weeks that yielded no activities; report exhaustion once the
cursor passes the since-bound.  Returns the `(ActivityInfo, ok)` pair, the
successor state, and the weeks fetched during the call. -/
def next (env : WeekEnv) (st : ItState) :
    (ActivityInfo × Bool) × ItState × List Int :=
  if _hDone : st.done then ((zeroActivityInfo, false), st, [])
  else if _hIdx : st.activityIndex ≥ st.activities.length then
    match hF : fetchActivitiesForWeek env st with
    | (.error _, tr) => ((zeroActivityInfo, false), { st with done := true }, tr)
    | (.ok st', tr) =>
      if _hE : st'.activities.length = 0 then
        -- "If we got no activities, try the next week."
        let r := next env st'
        (r.1, r.2.1, tr ++ r.2.2)
      else if st'.activityIndex ≥ st'.activities.length then
        -- Double-check bounds (reached when the bound-hit fetch left a stale
        -- nonempty buffer behind).
        ((zeroActivityInfo, false), { st' with done := true }, tr)
      else
        ((st'.activities.getD st'.activityIndex zeroActivityInfo, true),
          { st' with activityIndex := st'.activityIndex + 1 }, tr)
  else
    ((st.activities.getD st.activityIndex zeroActivityInfo, true),
      { st with activityIndex := st.activityIndex + 1 }, [])
termination_by itMeasure st
decreasing_by
  rcases fetch_shape hF with ⟨hb, hst⟩ | ⟨hb, hu, hs, hd⟩
  · subst hst
    simp [itMeasure, _hDone]
  · have hD : st.done = false := by simpa using _hDone
    have h1 : itMeasure st = (st.untilDate + 7 - st.sinceDate).toNat + 1 := by
      simp [itMeasure, hD]
    have h2 : itMeasure st' = (st.untilDate - 7 + 7 - st.sinceDate).toNat + 1 := by
      simp [itMeasure, hd, hD, hu, hs]
    rw [h1, h2]
    omega

/-! ## Persistent cookie jar (`runalyze/cookie_jar.go`, plus the legacy
variant kept in the repository)

`load` parses the saved JSON into `cookieEntry` values, converts them
field-for-field to `http.Cookie` values, and replays them into the in-memory
jar through `Jar.SetCookies` calls.  The model represents a cookie by the same
record as an entry (the conversion is field-identical) and `load` by the list
of `SetCookies` invocations it issues, each a `(URL string, cookies)` pair.
The current version routes entries with an empty domain to
`https://runalyze.com`; the legacy variant (`unnamed/part_010`) skips them.
Explicit-domain calls are listed in first-appearance order of the domain (Go
map iteration order is unspecified; no theorem below depends on that order).
`save` serializes `Jar.Cookies("https://runalyze.com")`, and
`net/http/cookiejar.Jar.Cookies` populates only `Name` and `Value`, so every
saved entry has an empty `Domain`. -/

/-- A serialized cookie entry (`cookieEntry`); also stands for the
field-identical `http.Cookie` built from it.  `Expires` is epoch nanoseconds. -/
structure CookieEntry where
  name : String
  value : String
  domain : String
  path : String
  expires : Int
  rawExpires : String
  maxAge : Int
  secure : Bool
  httpOnly : Bool
  sameSite : Int
  raw : String
  unparsed : List String
  deriving DecidableEq, Repr

/-- A cookie entry holding only name and value, every other field zero — the
shape `Jar.Cookies` returns and `save` therefore writes. -/
def nameValueCookie (nv : String × String) : CookieEntry :=
  { name := nv.1, value := nv.2, domain := "", path := "", expires := 0,
    rawExpires := "", maxAge := 0, secure := false, httpOnly := false,
    sameSite := 0, raw := "", unparsed := [] }

/-- Host of a URL string as `url.Parse(...).Host` yields it for the simple
`scheme://host[/...]` URLs the jar builds: strip the scheme, keep up to the
first slash. -/
def hostOfURL (u : String) : String :=
  let rest :=
    if "https://".data.isPrefixOf u.data then u.data.drop 8
    else if "http://".data.isPrefixOf u.data then u.data.drop 7
    else u.data
  ⟨rest.takeWhile (· ≠ '/')⟩

/-- Domain key used for the `urls` map: prepend `https://` unless the stored
domain already carries a scheme. -/
def domainKey (domain : String) : String :=
  if "http://".data.isPrefixOf domain.data || "https://".data.isPrefixOf domain.data then
    domain
  else "https://" ++ domain

/-- First-appearance deduplicated list of `urls` map keys for the entries
with a nonempty domain. -/
def explicitDomainKeys (entries : List CookieEntry) : List String :=
  (entries.filter (fun c => c.domain ≠ "")).foldl
    (fun acc c => if domainKey c.domain ∈ acc then acc else acc ++ [domainKey c.domain])
    []

/-- The `Jar.SetCookies` calls issued for explicit domains: for every URL in
the `urls` map, the cookies whose `Domain` equals the URL's host. -/
def explicitDomainCalls (entries : List CookieEntry) :
    List (String × List CookieEntry) :=
  (explicitDomainKeys entries).map fun u =>
    (u, entries.filter (fun c => c.domain == hostOfURL u))

/-- `persistentCookieJar.load` (current version), as the list of
`Jar.SetCookies` calls it issues: the explicit-domain calls, then — when any
entry has an empty domain — one call delivering all of those entries to
`https://runalyze.com`. -/
def load (entries : List CookieEntry) : List (String × List CookieEntry) :=
  let runalyzeCookies := entries.filter (fun c => c.domain == "")
  explicitDomainCalls entries ++
    (if runalyzeCookies.length > 0 then [("https://runalyze.com", runalyzeCookies)] else [])

/-- The legacy `persistentCookieJar.load` (`unnamed/part_010`): entries with
an empty domain are skipped (`continue`) and appear in no `SetCookies` call. -/
def loadLegacy (entries : List CookieEntry) : List (String × List CookieEntry) :=
  explicitDomainCalls entries

/-- `persistentCookieJar.save`, given what `Jar.Cookies("https://runalyze.com")`
returned (name/value pairs only, per the `net/http/cookiejar` contract): the
serialized entry list. -/
def save (jarCookies : List (String × String)) : List CookieEntry :=
  jarCookies.map nameValueCookie

/-! ## Run orchestrator (`rd/download.go`, `Download`)

`Download` sequences: date validation, dependency setup, credential check,
client construction and authentication, service construction, directory
preparation, activity download, summary.  All effectful steps sit behind a
`RunEnv` of oracles; the returned trace records which steps executed, in
order.  Network activity can only occur inside `createClient`,
`ensureAuthenticated`, and `downloadAll` — so an empty trace in particular
means no web client was created and no network operation was invoked. -/

/-- `DownloadConfig`. -/
structure DownloadConfig where
  username : String
  password : String
  cookiePath : String
  untilStr : String
  sinceStr : String
  saveDir : String
  jsonMode : Bool
  deriving Repr

/-- The effectful steps `Download` may execute, in program order. -/
inductive RunStep where
  /-- `setupDependencies` (output logger and presentation; no network) -/
  | setupDependencies
  /-- `runalyze.New` inside `createAndAuthenticateClient` -/
  | createClient
  /-- `AuthService.EnsureAuthenticated` (network probes and login) -/
  | ensureAuthenticated
  /-- `prepareDownloadDirectory` -/
  | prepareDir
  /-- `downloadActivities` (iterator pulls and per-activity downloads) -/
  | downloadAll
  deriving DecidableEq, Repr

/-- Errors `Download` can return, tagged by origin. -/
inductive RunError where
  | dates (e : DateError)
  | setupFailed
  | credentials
  | clientCreate
  | authFailed
  | dirFailed
  | downloadFailed
  deriving DecidableEq, Repr

/-- Outcome oracles for the effectful steps of `Download`. -/
structure RunEnv where
  setupOk : Bool
  createClientOk : Bool
  authOk : Bool
  prepareDirOk : Bool
  downloadOk : Bool

/-- `Download`: the orchestration skeleton with its effect trace.  Date
validation is performed first; any `DateError` is returned before any step
runs. -/
def Download (env : RunEnv) (nowDay : Nat) (config : DownloadConfig) :
    Except RunError Unit × List RunStep :=
  match ValidateAndParseDates nowDay config.untilStr config.sinceStr with
  | .error e => (.error (.dates e), [])
  | .ok _ =>
    if !env.setupOk then (.error .setupFailed, [.setupDependencies])
    else if config.username == "" || config.password == "" then
      (.error .credentials, [.setupDependencies])
    else if !env.createClientOk then
      (.error .clientCreate, [.setupDependencies, .createClient])
    else if !env.authOk then
      (.error .authFailed, [.setupDependencies, .createClient, .ensureAuthenticated])
    else if !env.prepareDirOk then
      (.error .dirFailed,
        [.setupDependencies, .createClient, .ensureAuthenticated, .prepareDir])
    else if !env.downloadOk then
      (.error .downloadFailed,
        [.setupDependencies, .createClient, .ensureAuthenticated, .prepareDir, .downloadAll])
    else
      (.ok (),
        [.setupDependencies, .createClient, .ensureAuthenticated, .prepareDir, .downloadAll])

/-! ## Theorems

### Download engine: idempotent skip (C1) -/

/-- A path just written is reported as existing. -/
theorem fsExists_append_self (files : FSState) (p : String) (d : List Nat) :
    fsExists (files ++ [(p, d)]) p = true := by
  simp [fsExists]

/-- When the FIT candidate exists, `DownloadActivity` short-circuits. -/
theorem downloadActivity_fit_exists (client : ClientModel) (fs : FSModel)
    (files : FSState) (activity : ActivityInfo) (saveDir : String)
    (h : fsExists files (fitPathOf activity.id saveDir) = true) :
    DownloadActivity client fs files activity saveDir =
      ({ activityID := activity.id, success := true, fileType := "FIT",
         filePath := fitPathOf activity.id saveDir, error := none, existed := true },
       [.existsCheck (fitPathOf activity.id saveDir)], files) := by
  unfold DownloadActivity
  simp [h]

/-- When only the TCX candidate exists, `DownloadActivity` short-circuits. -/
theorem downloadActivity_tcx_exists (client : ClientModel) (fs : FSModel)
    (files : FSState) (activity : ActivityInfo) (saveDir : String)
    (h1 : fsExists files (fitPathOf activity.id saveDir) = false)
    (h2 : fsExists files (tcxPathOf activity.id saveDir) = true) :
    DownloadActivity client fs files activity saveDir =
      ({ activityID := activity.id, success := true, fileType := "TCX",
         filePath := tcxPathOf activity.id saveDir, error := none, existed := true },
       [.existsCheck (fitPathOf activity.id saveDir),
        .existsCheck (tcxPathOf activity.id saveDir)], files) := by
  unfold DownloadActivity
  simp [h1, h2]

/-- Branch equation: no candidate exists and both exports report 404. -/
theorem downloadActivity_neither (client : ClientModel) (fs : FSModel)
    (files : FSState) (activity : ActivityInfo) (saveDir : String)
    (fitErr tcxErr : String)
    (h1 : fsExists files (fitPathOf activity.id saveDir) = false)
    (h2 : fsExists files (tcxPathOf activity.id saveDir) = false)
    (hfit : client.getFit activity.id = .error fitErr)
    (hnf : isNotFoundError (some fitErr) = true)
    (htcx : client.getTcx activity.id = .error tcxErr)
    (hnf2 : isNotFoundError (some tcxErr) = true) :
    DownloadActivity client fs files activity saveDir =
      ({ activityID := activity.id, success := false, fileType := "NONE",
         filePath := "",
         error := some ("neither FIT nor TCX available for activity " ++ activity.id),
         existed := false },
       [.existsCheck (fitPathOf activity.id saveDir),
        .existsCheck (tcxPathOf activity.id saveDir),
        .getFit activity.id, .getTcx activity.id], files) := by
  unfold DownloadActivity
  simp [h1, h2, hfit, hnf, htcx, hnf2]

/-- Branch equation: no candidate exists, FIT reports 404, TCX fails with a
non-404 error. -/
theorem downloadActivity_tcx_error (client : ClientModel) (fs : FSModel)
    (files : FSState) (activity : ActivityInfo) (saveDir : String)
    (fitErr tcxErr : String)
    (h1 : fsExists files (fitPathOf activity.id saveDir) = false)
    (h2 : fsExists files (tcxPathOf activity.id saveDir) = false)
    (hfit : client.getFit activity.id = .error fitErr)
    (hnf : isNotFoundError (some fitErr) = true)
    (htcx : client.getTcx activity.id = .error tcxErr)
    (hnf2 : isNotFoundError (some tcxErr) = false) :
    DownloadActivity client fs files activity saveDir =
      ({ activityID := activity.id, success := false, fileType := "TCX",
         filePath := "",
         error := some ("failed to download TCX file for activity " ++ activity.id ++ ": " ++ tcxErr),
         existed := false },
       [.existsCheck (fitPathOf activity.id saveDir),
        .existsCheck (tcxPathOf activity.id saveDir),
        .getFit activity.id, .getTcx activity.id], files) := by
  unfold DownloadActivity
  simp [h1, h2, hfit, hnf, htcx, hnf2]

/-- Branch equation: no candidate exists, FIT reports 404, TCX bytes arrive
and the write fails. -/
theorem downloadActivity_tcx_write_fail (client : ClientModel) (fs : FSModel)
    (files : FSState) (activity : ActivityInfo) (saveDir : String)
    (fitErr : String) (tcxData : List Nat) (fn wErr : String)
    (h1 : fsExists files (fitPathOf activity.id saveDir) = false)
    (h2 : fsExists files (tcxPathOf activity.id saveDir) = false)
    (hfit : client.getFit activity.id = .error fitErr)
    (hnf : isNotFoundError (some fitErr) = true)
    (htcx : client.getTcx activity.id = .ok (tcxData, fn))
    (hw : fs.writeErr (tcxPathOf activity.id saveDir) tcxData = some wErr) :
    DownloadActivity client fs files activity saveDir =
      ({ activityID := activity.id, success := false, fileType := "TCX",
         filePath := "",
         error := some ("failed to save TCX file for activity " ++ activity.id ++ ": " ++ wErr),
         existed := false },
       [.existsCheck (fitPathOf activity.id saveDir),
        .existsCheck (tcxPathOf activity.id saveDir),
        .getFit activity.id, .getTcx activity.id,
        .writeFile (tcxPathOf activity.id saveDir) tcxData], files) := by
  unfold DownloadActivity
  simp [h1, h2, hfit, hnf, htcx, hw]

/-- Branch equation: no candidate exists, FIT reports 404, TCX bytes arrive
and are written. -/
theorem downloadActivity_tcx_written (client : ClientModel) (fs : FSModel)
    (files : FSState) (activity : ActivityInfo) (saveDir : String)
    (fitErr : String) (tcxData : List Nat) (fn : String)
    (h1 : fsExists files (fitPathOf activity.id saveDir) = false)
    (h2 : fsExists files (tcxPathOf activity.id saveDir) = false)
    (hfit : client.getFit activity.id = .error fitErr)
    (hnf : isNotFoundError (some fitErr) = true)
    (htcx : client.getTcx activity.id = .ok (tcxData, fn))
    (hw : fs.writeErr (tcxPathOf activity.id saveDir) tcxData = none) :
    DownloadActivity client fs files activity saveDir =
      ({ activityID := activity.id, success := true, fileType := "TCX",
         filePath := tcxPathOf activity.id saveDir, error := none,
         existed := false },
       [.existsCheck (fitPathOf activity.id saveDir),
        .existsCheck (tcxPathOf activity.id saveDir),
        .getFit activity.id, .getTcx activity.id,
        .writeFile (tcxPathOf activity.id saveDir) tcxData],
       files ++ [(tcxPathOf activity.id saveDir, tcxData)]) := by
  unfold DownloadActivity
  simp [h1, h2, hfit, hnf, htcx, hw]

/-- Branch equation: no candidate exists and FIT fails with a non-404 error
(fallback is never attempted). -/
theorem downloadActivity_fit_error (client : ClientModel) (fs : FSModel)
    (files : FSState) (activity : ActivityInfo) (saveDir : String)
    (fitErr : String)
    (h1 : fsExists files (fitPathOf activity.id saveDir) = false)
    (h2 : fsExists files (tcxPathOf activity.id saveDir) = false)
    (hfit : client.getFit activity.id = .error fitErr)
    (hnf : isNotFoundError (some fitErr) = false) :
    DownloadActivity client fs files activity saveDir =
      ({ activityID := activity.id, success := false, fileType := "FIT",
         filePath := "",
         error := some ("failed to download FIT file for activity " ++ activity.id ++ ": " ++ fitErr),
         existed := false },
       [.existsCheck (fitPathOf activity.id saveDir),
        .existsCheck (tcxPathOf activity.id saveDir),
        .getFit activity.id], files) := by
  unfold DownloadActivity
  simp [h1, h2, hfit, hnf]

/-- Branch equation: no candidate exists, FIT bytes arrive and the write
fails. -/
theorem downloadActivity_fit_write_fail (client : ClientModel) (fs : FSModel)
    (files : FSState) (activity : ActivityInfo) (saveDir : String)
    (fitData : List Nat) (fn wErr : String)
    (h1 : fsExists files (fitPathOf activity.id saveDir) = false)
    (h2 : fsExists files (tcxPathOf activity.id saveDir) = false)
    (hfit : client.getFit activity.id = .ok (fitData, fn))
    (hw : fs.writeErr (fitPathOf activity.id saveDir) fitData = some wErr) :
    DownloadActivity client fs files activity saveDir =
      ({ activityID := activity.id, success := false, fileType := "FIT",
         filePath := "",
         error := some ("failed to save FIT file for activity " ++ activity.id ++ ": " ++ wErr),
         existed := false },
       [.existsCheck (fitPathOf activity.id saveDir),
        .existsCheck (tcxPathOf activity.id saveDir),
        .getFit activity.id,
        .writeFile (fitPathOf activity.id saveDir) fitData], files) := by
  unfold DownloadActivity
  simp [h1, h2, hfit, hw]

/-- Branch equation: no candidate exists, FIT bytes arrive and are written. -/
theorem downloadActivity_fit_written (client : ClientModel) (fs : FSModel)
    (files : FSState) (activity : ActivityInfo) (saveDir : String)
    (fitData : List Nat) (fn : String)
    (h1 : fsExists files (fitPathOf activity.id saveDir) = false)
    (h2 : fsExists files (tcxPathOf activity.id saveDir) = false)
    (hfit : client.getFit activity.id = .ok (fitData, fn))
    (hw : fs.writeErr (fitPathOf activity.id saveDir) fitData = none) :
    DownloadActivity client fs files activity saveDir =
      ({ activityID := activity.id, success := true, fileType := "FIT",
         filePath := fitPathOf activity.id saveDir, error := none,
         existed := false },
       [.existsCheck (fitPathOf activity.id saveDir),
        .existsCheck (tcxPathOf activity.id saveDir),
        .getFit activity.id,
        .writeFile (fitPathOf activity.id saveDir) fitData],
       files ++ [(fitPathOf activity.id saveDir, fitData)]) := by
  unfold DownloadActivity
  simp [h1, h2, hfit, hw]

/-- C1: if the exists-check reports either candidate path (`<id>.fit` first,
else `<id>.tcx`) as present, `DownloadActivity` returns `Success = true`,
`Existed = true` and the matching format, invokes no web-client capability,
and leaves the file system unchanged; consequently a second call right after
any successful call finds the file, reports `Existed = true`, and makes no
network call. -/
theorem downloadActivity_idempotent_skip :
    (∀ (client : ClientModel) (fs : FSModel) (files : FSState)
       (activity : ActivityInfo) (saveDir : String),
      (fsExists files (fitPathOf activity.id saveDir) ||
       fsExists files (tcxPathOf activity.id saveDir)) = true →
      (DownloadActivity client fs files activity saveDir).1.success = true ∧
      (DownloadActivity client fs files activity saveDir).1.existed = true ∧
      (DownloadActivity client fs files activity saveDir).1.fileType =
        (if fsExists files (fitPathOf activity.id saveDir) then "FIT" else "TCX") ∧
      (∀ c ∈ (DownloadActivity client fs files activity saveDir).2.1,
        c.isClientCall = false) ∧
      (DownloadActivity client fs files activity saveDir).2.2 = files) ∧
    (∀ (client : ClientModel) (fs : FSModel) (files : FSState)
       (activity : ActivityInfo) (saveDir : String),
      (DownloadActivity client fs files activity saveDir).1.success = true →
      (DownloadActivity client fs
          (DownloadActivity client fs files activity saveDir).2.2
          activity saveDir).1.existed = true ∧
      (DownloadActivity client fs
          (DownloadActivity client fs files activity saveDir).2.2
          activity saveDir).1.success = true ∧
      (∀ c ∈ (DownloadActivity client fs
          (DownloadActivity client fs files activity saveDir).2.2
          activity saveDir).2.1, c.isClientCall = false)) := by
  have skip : ∀ (client : ClientModel) (fs : FSModel) (files : FSState)
      (activity : ActivityInfo) (saveDir : String),
      (fsExists files (fitPathOf activity.id saveDir) ||
       fsExists files (tcxPathOf activity.id saveDir)) = true →
      (DownloadActivity client fs files activity saveDir).1.success = true ∧
      (DownloadActivity client fs files activity saveDir).1.existed = true ∧
      (DownloadActivity client fs files activity saveDir).1.fileType =
        (if fsExists files (fitPathOf activity.id saveDir) then "FIT" else "TCX") ∧
      (∀ c ∈ (DownloadActivity client fs files activity saveDir).2.1,
        c.isClientCall = false) ∧
      (DownloadActivity client fs files activity saveDir).2.2 = files := by
    intro client fs files activity saveDir h
    by_cases h1 : fsExists files (fitPathOf activity.id saveDir) = true
    · rw [downloadActivity_fit_exists client fs files activity saveDir h1]
      simp [h1, Call.isClientCall]
    · have h1f : fsExists files (fitPathOf activity.id saveDir) = false := by
        simpa using h1
      have h2 : fsExists files (tcxPathOf activity.id saveDir) = true := by
        rcases Bool.or_eq_true_iff.mp h with hx | hx
        · exact absurd hx h1
        · exact hx
      rw [downloadActivity_tcx_exists client fs files activity saveDir h1f h2]
      simp [h1f, Call.isClientCall]
  refine ⟨skip, ?_⟩
  intro client fs files activity saveDir hsucc
  set fitP := fitPathOf activity.id saveDir with hfitP
  set tcxP := tcxPathOf activity.id saveDir with htcxP
  have second : ∀ files1 : FSState,
      (fsExists files1 fitP || fsExists files1 tcxP) = true →
      (DownloadActivity client fs files1 activity saveDir).1.existed = true ∧
      (DownloadActivity client fs files1 activity saveDir).1.success = true ∧
      (∀ c ∈ (DownloadActivity client fs files1 activity saveDir).2.1,
        c.isClientCall = false) := by
    intro files1 hex
    have := skip client fs files1 activity saveDir hex
    exact ⟨this.2.1, this.1, this.2.2.2.1⟩
  by_cases h1 : fsExists files fitP = true
  · rw [downloadActivity_fit_exists client fs files activity saveDir h1]
    exact second files (by simp [h1])
  · have h1f : fsExists files fitP = false := by simpa using h1
    by_cases h2 : fsExists files tcxP = true
    · rw [downloadActivity_tcx_exists client fs files activity saveDir h1f h2]
      exact second files (by simp [h2])
    · have h2f : fsExists files tcxP = false := by simpa using h2
      -- Neither file existed: the first call went to the network.  It
      -- succeeded, so it ended in one of the two write-success branches,
      -- each of which appends the written path to the file system.
      cases hfit : client.getFit activity.id with
      | error fitErr =>
        by_cases hnf : isNotFoundError (some fitErr) = true
        · cases htcx : client.getTcx activity.id with
          | error tcxErr =>
            by_cases hnf2 : isNotFoundError (some tcxErr) = true
            · rw [downloadActivity_neither client fs files activity saveDir
                fitErr tcxErr h1f h2f hfit hnf htcx hnf2] at hsucc
              exact absurd hsucc (by simp)
            · rw [downloadActivity_tcx_error client fs files activity saveDir
                fitErr tcxErr h1f h2f hfit hnf htcx (by simpa using hnf2)] at hsucc
              exact absurd hsucc (by simp)
          | ok tcxOut =>
            cases hw : fs.writeErr tcxP tcxOut.1 with
            | some wErr =>
              rw [downloadActivity_tcx_write_fail client fs files activity saveDir
                fitErr tcxOut.1 tcxOut.2 wErr h1f h2f hfit hnf (by rw [htcx])
                hw] at hsucc
              exact absurd hsucc (by simp)
            | none =>
              rw [downloadActivity_tcx_written client fs files activity saveDir
                fitErr tcxOut.1 tcxOut.2 h1f h2f hfit hnf (by rw [htcx]) hw]
              exact second (files ++ [(tcxP, tcxOut.1)])
                (by simp [fsExists_append_self])
        · rw [downloadActivity_fit_error client fs files activity saveDir
            fitErr h1f h2f hfit (by simpa using hnf)] at hsucc
          exact absurd hsucc (by simp)
      | ok fitOut =>
        cases hw : fs.writeErr fitP fitOut.1 with
        | some wErr =>
          rw [downloadActivity_fit_write_fail client fs files activity saveDir
            fitOut.1 fitOut.2 wErr h1f h2f (by rw [hfit]) hw] at hsucc
          exact absurd hsucc (by simp)
        | none =>
          rw [downloadActivity_fit_written client fs files activity saveDir
            fitOut.1 fitOut.2 h1f h2f (by rw [hfit]) hw]
          exact second (files ++ [(fitP, fitOut.1)])
            (by simp [fsExists_append_self])

/-- Client stub: both exports answer the exact 404 message for FIT, valid
bytes for TCX. -/
def witClientNF : ClientModel :=
  ⟨fun _ => .error "unexpected status code: 404", fun _ => .ok ([7, 8], "w.tcx")⟩

/-- Client stub: both exports answer the exact 404 message. -/
def witClientNone : ClientModel :=
  ⟨fun _ => .error "unexpected status code: 404",
   fun _ => .error "unexpected status code: 404"⟩

/-- Client stub: FIT fails with a wrapped 404 message, TCX would succeed. -/
def witClientWrapped : ClientModel :=
  ⟨fun _ => .error "activity not found: unexpected status code: 404",
   fun _ => .ok ([3], "w.tcx")⟩

/-- File system whose writes always succeed. -/
def witFSOk : FSModel := ⟨fun _ _ => none⟩

/-- A sample activity record. -/
def witActivity : ActivityInfo :=
  { id := "424242", type := "icons8-running", typeEmoji := "🏃",
    weekStart := 0, weekEnd := 6 }

/-- Witness for C1 at concrete inputs: a pre-existing FIT file short-circuits
with `Existed = true`, and a fresh download followed by a repeat call reports
`Existed = true` the second time. -/
theorem downloadActivity_idempotent_skip_witness :
    (fsExists [("act/424242.fit", [1])] (fitPathOf "424242" "act") ||
     fsExists [("act/424242.fit", [1])] (tcxPathOf "424242" "act")) = true ∧
    (DownloadActivity witClientNF witFSOk [("act/424242.fit", [1])]
      witActivity "act").1.existed = true ∧
    (DownloadActivity witClientNF witFSOk [] witActivity "act").1.success = true ∧
    (DownloadActivity witClientNF witFSOk
      (DownloadActivity witClientNF witFSOk [] witActivity "act").2.2
      witActivity "act").1.existed = true :=
  ⟨by decide,
   (downloadActivity_idempotent_skip.1 witClientNF witFSOk
     [("act/424242.fit", [1])] witActivity "act" (by decide)).2.1,
   by decide,
   (downloadActivity_idempotent_skip.2 witClientNF witFSOk [] witActivity "act"
     (by decide)).1⟩

/-! ### Download engine: format fallback (C2) -/

/-- C2: when neither candidate file exists and the FIT export fails with the
404 condition — if the TCX export returns bytes (and the file system accepts
the write), the bytes are written to the TCX path and the result is a success
carrying the TCX format and that path; if the TCX export also reports 404,
the result is a failure with format `"NONE"` and no write call is issued. -/
theorem downloadActivity_fallback_ordering
    (client : ClientModel) (fs : FSModel) (files : FSState)
    (activity : ActivityInfo) (saveDir : String) (fitErr : String)
    (h1 : fsExists files (fitPathOf activity.id saveDir) = false)
    (h2 : fsExists files (tcxPathOf activity.id saveDir) = false)
    (hfit : client.getFit activity.id = .error fitErr)
    (hnf : isNotFoundError (some fitErr) = true) :
    (∀ (tcxData : List Nat) (fn : String),
      client.getTcx activity.id = .ok (tcxData, fn) →
      fs.writeErr (tcxPathOf activity.id saveDir) tcxData = none →
      (DownloadActivity client fs files activity saveDir).1.success = true ∧
      (DownloadActivity client fs files activity saveDir).1.fileType = "TCX" ∧
      (DownloadActivity client fs files activity saveDir).1.filePath =
        tcxPathOf activity.id saveDir ∧
      (DownloadActivity client fs files activity saveDir).2.2 =
        files ++ [(tcxPathOf activity.id saveDir, tcxData)] ∧
      Call.writeFile (tcxPathOf activity.id saveDir) tcxData ∈
        (DownloadActivity client fs files activity saveDir).2.1) ∧
    (∀ tcxErr : String,
      client.getTcx activity.id = .error tcxErr →
      isNotFoundError (some tcxErr) = true →
      (DownloadActivity client fs files activity saveDir).1.success = false ∧
      (DownloadActivity client fs files activity saveDir).1.fileType = "NONE" ∧
      (∀ c ∈ (DownloadActivity client fs files activity saveDir).2.1,
        c.isWriteCall = false) ∧
      (DownloadActivity client fs files activity saveDir).2.2 = files) := by
  constructor
  · intro tcxData fn htcx hw
    rw [downloadActivity_tcx_written client fs files activity saveDir
      fitErr tcxData fn h1 h2 hfit hnf htcx hw]
    simp
  · intro tcxErr htcx hnf2
    rw [downloadActivity_neither client fs files activity saveDir
      fitErr tcxErr h1 h2 hfit hnf htcx hnf2]
    simp [Call.isWriteCall]

/-- Witness for C2 at concrete inputs: a 404-then-bytes client stub yields a
TCX success written at the TCX path; a 404-for-both stub yields the
`"NONE"`-format failure. -/
theorem downloadActivity_fallback_ordering_witness :
    ((DownloadActivity witClientNF witFSOk [] witActivity "act").1.fileType = "TCX" ∧
     (DownloadActivity witClientNF witFSOk [] witActivity "act").1.filePath =
       tcxPathOf "424242" "act") ∧
    ((DownloadActivity witClientNone witFSOk [] witActivity "act").1.success = false ∧
     (DownloadActivity witClientNone witFSOk [] witActivity "act").1.fileType = "NONE") :=
  ⟨by
    have h := (downloadActivity_fallback_ordering witClientNF witFSOk []
      witActivity "act" "unexpected status code: 404" (by decide) (by decide)
      (by decide) (by decide)).1 [7, 8] "w.tcx" (by decide) (by decide)
    exact ⟨h.2.1, h.2.2.1⟩,
   by
    have h := (downloadActivity_fallback_ordering witClientNone witFSOk []
      witActivity "act" "unexpected status code: 404" (by decide) (by decide)
      (by decide) (by decide)).2 "unexpected status code: 404" (by decide)
      (by decide)
    exact ⟨h.1, h.2.1⟩⟩

/-! ### Download engine: the 404 condition is an exact-string match (C10) -/

/-- C10: the engine classifies an export error as the not-found condition iff
its rendered message is exactly `"unexpected status code: 404"`; any other
message (wrapped or reworded) makes `DownloadActivity` fail for the FIT
format without ever calling the TCX export. -/
theorem isNotFoundError_exact_match :
    (∀ e : Option String,
      isNotFoundError e = true ↔ e = some "unexpected status code: 404") ∧
    (∀ (client : ClientModel) (fs : FSModel) (files : FSState)
       (activity : ActivityInfo) (saveDir : String) (fitErr : String),
      fsExists files (fitPathOf activity.id saveDir) = false →
      fsExists files (tcxPathOf activity.id saveDir) = false →
      client.getFit activity.id = .error fitErr →
      fitErr ≠ "unexpected status code: 404" →
      (DownloadActivity client fs files activity saveDir).1.success = false ∧
      (DownloadActivity client fs files activity saveDir).1.fileType = "FIT" ∧
      Call.getTcx activity.id ∉
        (DownloadActivity client fs files activity saveDir).2.1) := by
  constructor
  · intro e
    cases e with
    | none => simp [isNotFoundError]
    | some s => simp [isNotFoundError]
  · intro client fs files activity saveDir fitErr h1 h2 hfit hne
    have hnf : isNotFoundError (some fitErr) = false := by
      simp [isNotFoundError, hne]
    rw [downloadActivity_fit_error client fs files activity saveDir
      fitErr h1 h2 hfit hnf]
    simp

/-- Witness for C10 at a concrete input: a wrapped message that merely
contains the 404 text is not classified as not-found, and the engine fails
for FIT without attempting TCX. -/
theorem isNotFoundError_exact_match_witness :
    isNotFoundError (some "activity not found: unexpected status code: 404") = false ∧
    (isNotFoundError (some "unexpected status code: 404") = true ↔
      (some "unexpected status code: 404" : Option String) =
        some "unexpected status code: 404") ∧
    ((DownloadActivity witClientWrapped witFSOk [] witActivity "act").1.fileType = "FIT" ∧
     Call.getTcx "424242" ∉
       (DownloadActivity witClientWrapped witFSOk [] witActivity "act").2.1) :=
  ⟨by decide,
   isNotFoundError_exact_match.1 (some "unexpected status code: 404"),
   by
    have h := isNotFoundError_exact_match.2 witClientWrapped witFSOk []
      witActivity "act" "activity not found: unexpected status code: 404"
      (by decide) (by decide) (by decide) (by decide)
    exact ⟨h.2.1, h.2.2⟩⟩

/-! ### Date normalization (C3) -/

/-- C3: whatever raw value `parseUntilDate` accepts, it returns the Monday
on-or-after the parsed base date (dates are whole days, so midnight
truncation is implicit in the model); in particular `2024-01-02` (a Tuesday)
normalizes to `2024-01-08` and `2024-01-01` (a Monday) stays put. -/
theorem parseUntilDate_monday_on_or_after :
    (∀ (s : String) (n : Nat), parseUntilDate s = some n →
      weekdayOf n = 1 ∧ ∃ t, parseBaseDate s = some t ∧ t ≤ n ∧ n < t + 7) ∧
    parseUntilDate "2024-01-02" = some (dayNumber 2024 1 8) ∧
    parseUntilDate "2024-01-01" = some (dayNumber 2024 1 1) := by
  refine ⟨?_, by decide, by decide⟩
  intro s n h
  unfold parseUntilDate at h
  cases hb : parseBaseDate s with
  | none => rw [hb] at h; simp at h
  | some t =>
    rw [hb] at h
    by_cases hm : weekdayOf t == 1
    · simp only [hm, if_true, Option.some.injEq] at h
      subst h
      exact ⟨by simpa using hm, t, rfl, le_refl t, by omega⟩
    · have hmf : (weekdayOf t == 1) = false := by simpa using hm
      simp only [hmf, Bool.false_eq_true, if_false, Option.some.injEq] at h
      subst h
      have hw : weekdayOf t ≠ 1 := by simpa using hm
      unfold weekdayOf at hw ⊢
      exact ⟨by omega, t, rfl, by omega, by omega⟩

/-- Witness for C3 at the concrete input `2024-01-02`. -/
theorem parseUntilDate_monday_on_or_after_witness :
    weekdayOf (dayNumber 2024 1 8) = 1 ∧
    ∃ t, parseBaseDate "2024-01-02" = some t ∧
      t ≤ dayNumber 2024 1 8 ∧ dayNumber 2024 1 8 < t + 7 :=
  parseUntilDate_monday_on_or_after.1 "2024-01-02" (dayNumber 2024 1 8)
    (by decide)

/-! ### Date-window validation happens first (C4) -/

/-- An all-success oracle environment for `Download`. -/
def witRunEnv : RunEnv :=
  { setupOk := true, createClientOk := true, authOk := true,
    prepareDirOk := true, downloadOk := true }

/-- A configuration whose since and until bounds coincide. -/
def witConfigEq : DownloadConfig :=
  { username := "u", password := "p", cookiePath := "c",
    untilStr := "2024-01-01", sinceStr := "2024-01-01",
    saveDir := "d", jsonMode := false }

/-- C4: whenever the parsed `since` is on-or-after the parsed `until`,
`ValidateAndParseDates` returns the validation error (equivalently, every
`ok` result satisfies `since < until`), and `Download` propagates any date
error with an empty step trace — so no web client is created and no network
capability is invoked; validation is the first step. -/
theorem validateDates_rejects_before_network :
    (∀ (nowDay : Nat) (untilStr sinceStr : String) (s u : Int),
      computeDatePair nowDay untilStr sinceStr = .ok (s, u) → u ≤ s →
      ValidateAndParseDates nowDay untilStr sinceStr = .error .validation) ∧
    (∀ (nowDay : Nat) (untilStr sinceStr : String) (s u : Int),
      ValidateAndParseDates nowDay untilStr sinceStr = .ok (s, u) → s < u) ∧
    (∀ (env : RunEnv) (nowDay : Nat) (config : DownloadConfig) (e : DateError),
      ValidateAndParseDates nowDay config.untilStr config.sinceStr = .error e →
      Download env nowDay config = (.error (.dates e), [])) := by
  refine ⟨?_, ?_, ?_⟩
  · intro nowDay untilStr sinceStr s u h hle
    unfold ValidateAndParseDates
    rw [h]
    have : (s > u ∨ (s == u) = true) := by
      rcases lt_or_eq_of_le hle with hlt | heq
      · exact Or.inl hlt
      · exact Or.inr (by simpa using heq.symm)
    rcases this with hgt | heq
    · simp [hgt]
    · simp [heq]
  · intro nowDay untilStr sinceStr s u h
    unfold ValidateAndParseDates at h
    cases hc : computeDatePair nowDay untilStr sinceStr with
    | error e => rw [hc] at h; simp at h
    | ok p =>
      rw [hc] at h
      by_cases hcond : (p.1 > p.2 || p.1 == p.2) = true
      · simp [hcond] at h
      · have hf : (p.1 > p.2 || p.1 == p.2) = false := by simpa using hcond
        simp only [hf, Bool.false_eq_true, if_false, Except.ok.injEq] at h
        have h1 : ¬p.1 > p.2 := by
          intro hgt
          simp [hgt] at hf
        have h2 : p.1 ≠ p.2 := by
          intro heq
          simp [heq] at hf
        have : s = p.1 ∧ u = p.2 := by
          constructor
          · exact congrArg Prod.fst h.symm
          · exact congrArg Prod.snd h.symm
        rcases this with ⟨hs, hu⟩
        subst hs; subst hu
        omega
  · intro env nowDay config e h
    unfold Download
    rw [h]

/-- Witness for C4 at concrete inputs: `since = until = 2024-01-01` parses
but is rejected with the validation error, and `Download` on that
configuration fails with an empty step trace. -/
theorem validateDates_rejects_before_network_witness :
    ValidateAndParseDates 0 "2024-01-01" "2024-01-01" = .error .validation ∧
    ((dayNumber 2024 1 1 : Int) * nsPerDay < (dayNumber 2024 1 15 : Int) * nsPerDay) ∧
    Download witRunEnv 0 witConfigEq = (.error (.dates .validation), []) :=
  ⟨validateDates_rejects_before_network.1 0 "2024-01-01" "2024-01-01"
     ((dayNumber 2024 1 1 : Int) * nsPerDay)
     ((dayNumber 2024 1 1 : Int) * nsPerDay) (by decide) (le_refl _),
   validateDates_rejects_before_network.2.1 0 "2024-01-15" "2024-01-01"
     ((dayNumber 2024 1 1 : Int) * nsPerDay)
     ((dayNumber 2024 1 15 : Int) * nsPerDay) (by decide),
   validateDates_rejects_before_network.2.2 witRunEnv 0 witConfigEq
     .validation
     (validateDates_rejects_before_network.1 0 "2024-01-01" "2024-01-01"
       ((dayNumber 2024 1 1 : Int) * nsPerDay)
       ((dayNumber 2024 1 1 : Int) * nsPerDay) (by decide) (le_refl _))⟩

/-! ### Stage-1 icon priority (C5)

`getActivityTypeEmoji` (`rd`) hard-codes the order running → biking →
sports-mode → substring checks, so a running-matching token always yields 🏃
and the fallback HTML is never consulted.  `DetectActivityType` (`sw`)
iterates its three icon regexes in Go map order, which is unspecified: a
token matching both the running and the biking pattern can yield 🚴 under a
biking-first iteration order, refuting the claimed fixed priority.  For
tokens matching only the running pattern, every iteration order yields 🏃. -/

/-- If the running regex matches but biking and sports-mode do not, any scan
order containing the running rule finds exactly it. -/
theorem find_running_rule (l : List IconRule) (t : List Char)
    (hmem : IconRule.running ∈ l)
    (hr : matchIconRunning t = true)
    (hb : matchRegularBiking t = false)
    (hs : containsSub t "sports-mode".data = false) :
    l.find? (fun r => iconRuleMatches r t) = some .running := by
  induction l with
  | nil => cases hmem
  | cons a l ih =>
    cases a with
    | running => simp [List.find?, iconRuleMatches, hr]
    | biking =>
      have hmem' : IconRule.running ∈ l := by simpa using hmem
      simpa [List.find?, iconRuleMatches, hb] using ih hmem'
    | sports =>
      have hmem' : IconRule.running ∈ l := by simpa using hmem
      simpa [List.find?, iconRuleMatches, hs] using ih hmem'

/-- C5 (amended): in `getActivityTypeEmoji` the icon rules are tested in the
fixed order running → biking → sports-mode → substring checks, so a token
matching the running pattern yields 🏃 for every fallback HTML (stage 1 wins
over stage 2); in `DetectActivityType` the three icon regexes are iterated in
unspecified Go map order, so the running rule is only guaranteed to win — for
every iteration order and every fallback HTML — when the token matches
neither of the other two icon patterns. -/
theorem stage1_running_priority :
    (∀ (order : List (String × List String)) (activityType fallbackHTML : String),
      matchIconRunning (toLowerList activityType) = true →
      getActivityTypeEmojiOrdered order activityType fallbackHTML = "🏃") ∧
    (∀ (iconOrder : List IconRule) (kwOrder : List (String × List String))
       (activityType fallbackHTML : String),
      iconOrder.Perm [IconRule.running, .biking, .sports] →
      matchIconRunning (toLowerList activityType) = true →
      matchRegularBiking (toLowerList activityType) = false →
      containsSub (toLowerList activityType) "sports-mode".data = false →
      DetectActivityTypeOrdered iconOrder kwOrder activityType fallbackHTML = "🏃") := by
  constructor
  · intro order activityType fallbackHTML h
    unfold getActivityTypeEmojiOrdered
    simp [h]
  · intro iconOrder kwOrder activityType fallbackHTML hperm hr hb hs
    have hmem : IconRule.running ∈ iconOrder := hperm.mem_iff.mpr (by simp)
    simp only [DetectActivityTypeOrdered]
    rw [find_running_rule iconOrder (toLowerList activityType) hmem hr hb hs]
    rfl

/-- Counterexample to C5 as stated: the token `"icon-running regular-biking"`
matches the running pattern, yet under the biking-first iteration order of
the three-entry icon map (a permutation of the stage-1 rules)
`DetectActivityType` returns 🚴, not 🏃 — stage 1 has no fixed priority order
in the `sw` implementation. -/
theorem stage1_running_priority_cex :
    matchIconRunning (toLowerList "icon-running regular-biking") = true ∧
    List.Perm [IconRule.biking, .running, .sports] [.running, .biking, .sports] ∧
    DetectActivityTypeOrdered [.biking, .running, .sports] swKeywordTable
      "icon-running regular-biking" "" = "🚴" := by
  refine ⟨by decide, by decide, by decide⟩

/-- Witness for the amended C5 at concrete inputs: both implementations give
🏃 on a running-only token, with keyword-bearing fallback HTML present. -/
theorem stage1_running_priority_witness :
    getActivityTypeEmojiOrdered rdSportKeywords "icons8-running" "bike football" = "🏃" ∧
    DetectActivityTypeOrdered [.biking, .running, .sports] swKeywordTable
      "icons8-running" "bike football" = "🏃" :=
  ⟨stage1_running_priority.1 rdSportKeywords "icons8-running" "bike football"
     (by decide),
   stage1_running_priority.2 [.biking, .running, .sports] swKeywordTable
     "icons8-running" "bike football" (by decide) (by decide) (by decide)
     (by decide)⟩

/-! ### Keyword fallback: earliest match (C6)

`ActivityTypeDetector.detectFromHTML` (`sw`) genuinely minimizes the match
offset across all categories (ties broken by the unspecified map order, which
cannot occur on the concrete text below).  `getActivityTypeFromHTML` (`rd`)
does not: it returns the first category in map iteration order with a
word-bounded match anywhere, so on the claim's own example text a gym-first
iteration order returns 💪. -/

/-- Keyword-level fold of `detectFromHTML`: the accumulator only improves
(strictly smaller offset, tagged with this category's emoji), and the result
is a lower bound on every keyword's leftmost match position. -/
theorem detect_kw_fold (content : List Char) (emoji : String)
    (kws : List String) (acc : Nat × String) :
    (kws.foldl (detectKwStep content emoji) acc = acc ∨
      (∃ kw ∈ kws,
        firstWordMatchPos content kw.data =
          some (kws.foldl (detectKwStep content emoji) acc).1 ∧
        (kws.foldl (detectKwStep content emoji) acc).2 = emoji ∧
        (kws.foldl (detectKwStep content emoji) acc).1 < acc.1)) ∧
    (kws.foldl (detectKwStep content emoji) acc).1 ≤ acc.1 ∧
    (∀ kw ∈ kws, ∀ p, firstWordMatchPos content kw.data = some p →
      (kws.foldl (detectKwStep content emoji) acc).1 ≤ p) := by
  induction kws generalizing acc with
  | nil => exact ⟨Or.inl rfl, le_refl _, by intro kw h; cases h⟩
  | cons kw0 kws ih =>
    simp only [List.foldl_cons]
    obtain ⟨ihS, ihLe, ihMin⟩ := ih (detectKwStep content emoji acc kw0)
    have hstep : detectKwStep content emoji acc kw0 = acc ∨
        (firstWordMatchPos content kw0.data =
            some (detectKwStep content emoji acc kw0).1 ∧
          (detectKwStep content emoji acc kw0).2 = emoji ∧
          (detectKwStep content emoji acc kw0).1 < acc.1) := by
      unfold detectKwStep
      cases hp : firstWordMatchPos content kw0.data with
      | none => exact Or.inl rfl
      | some p =>
        by_cases hlt : p < acc.1
        · exact Or.inr ⟨by simp [hlt], by simp [hlt], by simp [hlt]⟩
        · simp [hlt]
    have hstepLe : (detectKwStep content emoji acc kw0).1 ≤ acc.1 := by
      rcases hstep with he | ⟨_, _, hlt⟩
      · rw [he]
      · exact le_of_lt hlt
    refine ⟨?_, le_trans ihLe hstepLe, ?_⟩
    · rcases ihS with he | ⟨kw, hkw, hpos, hem, hlt⟩
      · rw [he]
        rcases hstep with he2 | ⟨hpos, hem, hlt⟩
        · exact Or.inl he2
        · exact Or.inr ⟨kw0, by simp, hpos, hem, hlt⟩
      · exact Or.inr ⟨kw, by simp [hkw], hpos, hem, lt_of_lt_of_le hlt hstepLe⟩
    · intro kw hkw p hp
      rcases List.mem_cons.mp hkw with he | hm
      · subst he
        have hself : (detectKwStep content emoji acc kw).1 ≤ p := by
          unfold detectKwStep
          rw [hp]
          by_cases hlt : p < acc.1
          · simp [hlt]
          · simp only [hlt, if_false]
            omega
        exact le_trans ihLe hself
      · exact ihMin kw hm p hp

/-- Category-level fold of `detectFromHTML`: the final accumulator is either
untouched or records some category's keyword match at exactly its offset, and
that offset is a lower bound on every keyword match of every category. -/
theorem detect_entry_fold (content : List Char)
    (order : List (String × List String)) (acc : Nat × String) :
    (order.foldl (detectEntryStep content) acc = acc ∨
      (∃ e ∈ order, ∃ kw ∈ e.2,
        firstWordMatchPos content kw.data =
          some (order.foldl (detectEntryStep content) acc).1 ∧
        (order.foldl (detectEntryStep content) acc).2 = e.1 ∧
        (order.foldl (detectEntryStep content) acc).1 < acc.1)) ∧
    (order.foldl (detectEntryStep content) acc).1 ≤ acc.1 ∧
    (∀ e ∈ order, ∀ kw ∈ e.2, ∀ p, firstWordMatchPos content kw.data = some p →
      (order.foldl (detectEntryStep content) acc).1 ≤ p) := by
  induction order generalizing acc with
  | nil => exact ⟨Or.inl rfl, le_refl _, by intro e h; cases h⟩
  | cons e0 order ih =>
    simp only [List.foldl_cons]
    obtain ⟨ihS, ihLe, ihMin⟩ := ih (detectEntryStep content acc e0)
    obtain ⟨sS, sLe, sMin⟩ := detect_kw_fold content e0.1 e0.2 acc
    have hes : detectEntryStep content acc e0 = e0.2.foldl (detectKwStep content e0.1) acc := rfl
    refine ⟨?_, by rw [hes] at ihLe ⊢; exact le_trans ihLe sLe, ?_⟩
    · rcases ihS with he | ⟨e, he, kw, hkw, hpos, hem, hlt⟩
      · rw [he, hes]
        rcases sS with he2 | ⟨kw, hkw, hpos, hem, hlt⟩
        · exact Or.inl he2
        · exact Or.inr ⟨e0, by simp, kw, hkw, hpos, hem, hlt⟩
      · refine Or.inr ⟨e, by simp [he], kw, hkw, hpos, hem, ?_⟩
        rw [hes] at hlt
        exact lt_of_lt_of_le hlt sLe
    · intro e he kw hkw p hp
      rcases List.mem_cons.mp he with he0 | hm
      · subst he0
        rw [hes] at ihLe
        exact le_trans ihLe (sMin kw hkw p hp)
      · exact ihMin e hm kw hkw p hp

/-- C6 (amended): for `ActivityTypeDetector.detectFromHTML` and every
iteration order of its keyword map, a non-❓ result is the emoji of a category
one of whose whole-word synonyms matches at the globally lowest offset of the
lower-cased text, and on `"Running and then some weight training"` every
iteration order returns 🏃.  (`getActivityTypeFromHTML`, the `rd` fallback,
instead returns the first category in map order with a match anywhere; see
the counterexample.) -/
theorem detectFromHTML_earliest_match :
    (∀ (order : List (String × List String)) (html emoji : String),
      order.Perm swKeywordTable →
      detectFromHTMLOrdered order html = emoji → emoji ≠ "❓" →
      ∃ p, (∃ pair ∈ swKeywordTable, pair.1 = emoji ∧ ∃ kw ∈ pair.2,
              firstWordMatchPos (toLowerList html) kw.data = some p) ∧
           (∀ pair ∈ swKeywordTable, ∀ kw ∈ pair.2, ∀ q,
              firstWordMatchPos (toLowerList html) kw.data = some q → p ≤ q)) ∧
    (∀ order : List (String × List String), order.Perm swKeywordTable →
      detectFromHTMLOrdered order "Running and then some weight training" = "🏃") := by
  constructor
  · intro order html emoji hperm hdet hne
    simp only [detectFromHTMLOrdered] at hdet
    obtain ⟨hS, hLe, hMin⟩ :=
      detect_entry_fold (toLowerList html) order ((toLowerList html).length + 1, "")
    set r := order.foldl (detectEntryStep (toLowerList html))
      ((toLowerList html).length + 1, "") with hr
    rcases hS with he | ⟨e, he, kw, hkw, hpos, hem, _⟩
    · rw [he] at hdet
      simp at hdet
      exact absurd hdet.symm hne
    · have hr2 : r.2 = emoji := by
        by_cases hz : r.2 = ""
        · rw [hz] at hdet
          simp at hdet
          exact absurd hdet.symm hne
        · simpa [hz] using hdet
      refine ⟨r.1, ⟨e, hperm.mem_iff.mp he, by rw [← hem, hr2], kw, hkw, hpos⟩, ?_⟩
      intro pair hpair kw2 hkw2 q hq
      exact hMin pair (hperm.mem_iff.mpr hpair) kw2 hkw2 q hq
  · intro order hperm
    have ht                       :=
      detect_entry_fold (toLowerList "Running and then some weight training")
        order ((toLowerList "Running and then some weight training").length + 1, "")
    obtain ⟨hS, hLe, hMin⟩ := ht
    have hrunMem : ("🏃", ["running", "run", "jog", "jogging", "marathon",
        "5k", "10k", "half marathon"]) ∈ order :=
      hperm.mem_iff.mpr (by simp [swKeywordTable])
    have hmatch : firstWordMatchPos
        (toLowerList "Running and then some weight training")
        "running".data = some 0 := by decide
    have h0 : (order.foldl
        (detectEntryStep (toLowerList "Running and then some weight training"))
        ((toLowerList "Running and then some weight training").length + 1, "")).1 ≤ 0 :=
      hMin _ hrunMem "running" (by simp) 0 hmatch
    rcases hS with he | ⟨e, he, kw, hkw, hpos, hem, _⟩
    · rw [he] at h0
      simp at h0
    · have h0e : (order.foldl
          (detectEntryStep (toLowerList "Running and then some weight training"))
          ((toLowerList "Running and then some weight training").length + 1, "")).1 = 0 :=
        Nat.le_antisymm h0 (Nat.zero_le _)
      have key : ∀ pair ∈ swKeywordTable, ∀ kw2 ∈ pair.2,
          firstWordMatchPos (toLowerList "Running and then some weight training")
            kw2.data = some 0 → pair.1 = "🏃" := by decide
      have hemoji : e.1 = "🏃" :=
        key e (hperm.mem_iff.mp he) kw hkw (h0e ▸ hpos)
      simp only [detectFromHTMLOrdered]
      rw [hem, hemoji]
      simp

/-- The `rd` keyword map in a gym-first iteration order (a permutation of the
source-literal order, hence a possible Go map iteration order). -/
def rdSportKeywordsGymFirst : List (String × List String) :=
  [("💪", ["gym", "strength", "weight", "lifting", "bodybuilding", "fitness", "workout", "training", "crossfit"]),
   ("🏃", ["running", "run", "jog", "jogging", "marathon", "5k", "10k", "half marathon"]),
   ("🚴", ["cycling", "cycle", "bike", "biking", "bicycle", "mtb", "road bike", "mountain bike"]),
   ("🏊", ["swimming", "swim", "pool", "freestyle", "backstroke", "breaststroke", "butterfly"]),
   ("⛷️", ["skiing", "ski", "alpine", "downhill", "cross country", "nordic", "snowboard", "snowboarding"]),
   ("🥾", ["hiking", "hike", "walk", "walking", "trekking", "trail", "nature walk"]),
   ("⚽", ["football", "soccer", "futbol", "match", "league", "pitch"]),
   ("🏀", ["basketball", "basket", "court", "dribble", "shoot", "dunk"]),
   ("🎾", ["tennis", "court", "racket", "serve", "match", "set"]),
   ("🚣", ["rowing", "row", "kayak", "canoe", "paddle", "boat", "crew"])]

/-- Counterexample to C6 as stated: in `getActivityTypeFromHTML` (`rd`), the
keyword table is a Go map scanned with `MatchString` (first category in
iteration order with a match anywhere wins, not the earliest offset); under
the gym-first iteration order — a permutation of the table — the claim's own
example text yields 💪 even though 🏃's synonym `"running"` matches at offset
0 and 💪's earliest match (`"weight"`) only at offset 22. -/
theorem keyword_earliest_match_cex :
    List.Perm rdSportKeywordsGymFirst rdSportKeywords ∧
    firstWordMatchPos (toLowerList "Running and then some weight training")
      "running".data = some 0 ∧
    firstWordMatchPos (toLowerList "Running and then some weight training")
      "weight".data = some 22 ∧
    getActivityTypeFromHTMLOrdered rdSportKeywordsGymFirst
      "Running and then some weight training" = "💪" :=
  ⟨by decide, by decide, by decide, by decide⟩

/-- Witness for the amended C6 at the source-literal order: the example text
classifies as 🏃. -/
theorem detectFromHTML_earliest_match_witness :
    detectFromHTMLOrdered swKeywordTable
      "Running and then some weight training" = "🏃" :=
  detectFromHTML_earliest_match.2 swKeywordTable (List.Perm.refl _)

/-! ### Week iterator: transparent week skipping (C7) and silent error
termination (C8) -/

/-- A done iterator answers `(zero, false)` immediately, fetching nothing. -/
theorem next_done (env : WeekEnv) (st : ItState) (h : st.done = true) :
    next env st = ((zeroActivityInfo, false), st, []) := by
  unfold next
  simp [h]

/-- A fetch error sets `done` and returns `(zero, false)` — not an error. -/
theorem next_fetch_error (env : WeekEnv) (st : ItState) (e : String)
    (hdone : st.done = false) (hidx : st.activities.length ≤ st.activityIndex)
    (hb : ¬ st.untilDate < st.sinceDate) (henv : env st.untilDate = .error e) :
    next env st = ((zeroActivityInfo, false), { st with done := true }, [st.untilDate]) := by
  have hfetch : fetchActivitiesForWeek env st = (.error e, [st.untilDate]) := by
    unfold fetchActivitiesForWeek
    simp [hb, henv]
  unfold next
  simp only [hdone, Bool.false_eq_true, dite_false, dif_neg, not_false_eq_true,
    ge_iff_le, hidx, dite_true]
  split
  · rename_i a tr hF
    rw [hfetch] at hF
    simp at hF
    rw [hF.2]
  · rename_i st' tr hF
    rw [hfetch] at hF
    simp at hF

/-- Once the cursor passes the since-bound, an exhausted-buffer pull sets
`done` and returns `(zero, false)` without issuing any fetch. -/
theorem next_at_bound (env : WeekEnv) (st : ItState)
    (hdone : st.done = false) (hidx : st.activities.length ≤ st.activityIndex)
    (hb : st.untilDate < st.sinceDate) :
    next env st = ((zeroActivityInfo, false), { st with done := true }, []) := by
  have hfetch : fetchActivitiesForWeek env st = (.ok { st with done := true }, []) := by
    unfold fetchActivitiesForWeek
    simp [hb]
  unfold next
  simp only [hdone, Bool.false_eq_true, dite_false, dif_neg, not_false_eq_true,
    ge_iff_le, hidx, dite_true]
  split
  · rename_i a tr hF
    rw [hfetch] at hF
    simp at hF
  · rename_i st' tr hF
    rw [hfetch] at hF
    simp only [Prod.mk.injEq, Except.ok.injEq] at hF
    obtain ⟨hst, htr⟩ := hF
    subst htr
    rw [← hst]
    by_cases hemp : st.activities.length = 0
    · rw [dif_pos hemp]
      rw [next_done env _ rfl]
      rfl
    · rw [dif_neg hemp]
      rw [if_pos hidx]

/-- Transparency: an exhausted-buffer pull on a week that yields zero
activities continues as a pull on the prior week, merely prefixing the fetch
trace with the skipped week. -/
theorem next_skip_empty (env : WeekEnv) (st : ItState)
    (hdone : st.done = false) (hidx : st.activities.length ≤ st.activityIndex)
    (hb : ¬ st.untilDate < st.sinceDate) (henv : env st.untilDate = .ok []) :
    next env st =
      ((next env { st with activities := [], activityIndex := 0,
                           untilDate := st.untilDate - 7 }).1,
       (next env { st with activities := [], activityIndex := 0,
                           untilDate := st.untilDate - 7 }).2.1,
       st.untilDate ::
         (next env { st with activities := [], activityIndex := 0,
                             untilDate := st.untilDate - 7 }).2.2) := by
  have hfetch : fetchActivitiesForWeek env st =
      (.ok { st with activities := [], activityIndex := 0,
                     untilDate := st.untilDate - 7 }, [st.untilDate]) := by
    unfold fetchActivitiesForWeek
    simp [hb, henv]
  conv_lhs => unfold next
  simp only [hdone, Bool.false_eq_true, dite_false, dif_neg, not_false_eq_true,
    ge_iff_le, hidx, dite_true]
  split
  · rename_i a tr hF
    rw [hfetch] at hF
    simp at hF
  · rename_i st' tr hF
    rw [hfetch] at hF
    simp only [Prod.mk.injEq, Except.ok.injEq] at hF
    obtain ⟨hst, htr⟩ := hF
    subst htr
    rw [← hst]
    simp [hdone]

/-- An exhausted-buffer pull on a week with activities yields its first
activity with a `true` flag. -/
theorem next_found (env : WeekEnv) (st : ItState)
    (a : ActivityInfo) (rest : List ActivityInfo)
    (hdone : st.done = false) (hidx : st.activities.length ≤ st.activityIndex)
    (hb : ¬ st.untilDate < st.sinceDate)
    (henv : env st.untilDate = .ok (a :: rest)) :
    next env st =
      ((a, true),
       { st with activities := a :: rest, activityIndex := 1,
                 untilDate := st.untilDate - 7 }, [st.untilDate]) := by
  have hfetch : fetchActivitiesForWeek env st =
      (.ok { st with activities := a :: rest, activityIndex := 0,
                     untilDate := st.untilDate - 7 }, [st.untilDate]) := by
    unfold fetchActivitiesForWeek
    simp [hb, henv]
  unfold next
  simp only [hdone, Bool.false_eq_true, dite_false, dif_neg, not_false_eq_true,
    ge_iff_le, hidx, dite_true]
  split
  · rename_i a2 tr hF
    rw [hfetch] at hF
    simp at hF
  · rename_i st' tr hF
    rw [hfetch] at hF
    simp only [Prod.mk.injEq, Except.ok.injEq] at hF
    obtain ⟨hst, htr⟩ := hF
    subst htr
    rw [← hst]
    simp [hdone]

/-- C7: with the buffer exhausted, a week that yields zero extracted
activities is transparently skipped — `Next` behaves exactly as a pull on the
prior week (cursor decremented by 7) rather than returning an empty result or
a false flag; repeating this, if every week down past the since-bound is
empty the call returns `(zero, false)`, and if some reachable week at or
above the bound has activities the call yields the first of them with `true`. -/
theorem iterator_skips_empty_weeks :
    (∀ (env : WeekEnv) (st : ItState),
      st.done = false → st.activities.length ≤ st.activityIndex →
      ¬ st.untilDate < st.sinceDate → env st.untilDate = .ok [] →
      next env st =
        ((next env { st with activities := [], activityIndex := 0,
                             untilDate := st.untilDate - 7 }).1,
         (next env { st with activities := [], activityIndex := 0,
                             untilDate := st.untilDate - 7 }).2.1,
         st.untilDate ::
           (next env { st with activities := [], activityIndex := 0,
                               untilDate := st.untilDate - 7 }).2.2)) ∧
    (∀ (env : WeekEnv) (st : ItState),
      st.done = false → st.activities.length ≤ st.activityIndex →
      (∀ w : Int, st.sinceDate ≤ w → w ≤ st.untilDate → env w = .ok []) →
      (next env st).1 = (zeroActivityInfo, false)) ∧
    (∀ (env : WeekEnv) (k : Nat) (st : ItState) (a : ActivityInfo)
       (rest : List ActivityInfo),
      st.done = false → st.activities.length ≤ st.activityIndex →
      (∀ j : Nat, j < k → env (st.untilDate - 7 * j) = .ok []) →
      env (st.untilDate - 7 * k) = .ok (a :: rest) →
      st.sinceDate ≤ st.untilDate - 7 * k →
      (next env st).1 = (a, true)) := by
  refine ⟨next_skip_empty, ?_, ?_⟩
  · intro env st h1 h2 h3
    suffices H : ∀ (n : Nat) (st : ItState),
        (st.untilDate + 7 - st.sinceDate).toNat ≤ n →
        st.done = false → st.activities.length ≤ st.activityIndex →
        (∀ w : Int, st.sinceDate ≤ w → w ≤ st.untilDate → env w = .ok []) →
        (next env st).1 = (zeroActivityInfo, false) by
      exact H _ st (le_refl _) h1 h2 h3
    intro n
    induction n with
    | zero =>
      intro st hn h1 h2 _h3
      have hb : st.untilDate < st.sinceDate := by omega
      rw [next_at_bound env st h1 h2 hb]
    | succ n ih =>
      intro st hn h1 h2 h3
      by_cases hb : st.untilDate < st.sinceDate
      · rw [next_at_bound env st h1 h2 hb]
      · have henv : env st.untilDate = .ok [] :=
          h3 st.untilDate (by omega) (le_refl _)
        rw [next_skip_empty env st h1 h2 hb henv]
        exact ih { st with activities := [], activityIndex := 0,
                           untilDate := st.untilDate - 7 }
          (by simp; omega) h1 (by simp)
          (fun w hw1 hw2 => h3 w hw1 (by simp at hw2; omega))
  · intro env k
    induction k with
    | zero =>
      intro st a rest h1 h2 _h3 h4 h5
      simp only [Nat.cast_zero, mul_zero, sub_zero] at h4 h5
      have hb : ¬ st.untilDate < st.sinceDate := by omega
      rw [next_found env st a rest h1 h2 hb h4]
    | succ k ih =>
      intro st a rest h1 h2 h3 h4 h5
      have hb : ¬ st.untilDate < st.sinceDate := by
        have hk : (0 : Int) ≤ 7 * ((k : Int) + 1) := by positivity
        push_cast at h5
        omega
      have henv : env st.untilDate = .ok [] := by
        have h0 := h3 0 (Nat.succ_pos k)
        simpa using h0
      rw [next_skip_empty env st h1 h2 hb henv]
      have harith : ∀ j : Nat, st.untilDate - 7 * ((j : Int) + 1) =
          st.untilDate - 7 - 7 * (j : Int) := by
        intro j
        ring
      refine ih { st with activities := [], activityIndex := 0,
                          untilDate := st.untilDate - 7 } a rest h1 (by simp)
        ?_ ?_ ?_
      · intro j hj
        have := h3 (j + 1) (Nat.succ_lt_succ hj)
        push_cast at this
        rw [harith j] at this
        simpa using this
      · have := h4
        push_cast at this
        rw [harith k] at this
        simpa using this
      · have := h5
        push_cast at this
        rw [harith k] at this
        simpa using this

/-- C8: a week-fetch failure makes that `Next` call return `(zero, false)`
(the consumer sees exhaustion, not an error) after the single failing fetch,
leaving the iterator permanently `done`; and every call on a `done` iterator
returns `(zero, false)` with an empty fetch trace — no further web-client
call is ever issued. -/
theorem iterator_error_terminates :
    (∀ (env : WeekEnv) (st : ItState) (e : String),
      st.done = false → st.activities.length ≤ st.activityIndex →
      ¬ st.untilDate < st.sinceDate → env st.untilDate = .error e →
      next env st =
        ((zeroActivityInfo, false), { st with done := true }, [st.untilDate])) ∧
    (∀ (env : WeekEnv) (st : ItState), st.done = true →
      next env st = ((zeroActivityInfo, false), st, [])) :=
  ⟨next_fetch_error, next_done⟩

/-- Fetch oracle: week 107 carries one activity, every other week is empty. -/
def witEnvWeek : WeekEnv :=
  fun w => if w == 107 then .ok [witActivity] else .ok []

/-- Fetch oracle: every week is empty. -/
def witEnvEmpty : WeekEnv := fun _ => .ok []

/-- Fetch oracle: every fetch fails. -/
def witEnvErr : WeekEnv := fun _ => .error "network down"

/-- The iterator state one transparent week-skip past `newIterator 114 100`. -/
def witSkipState : ItState :=
  { newIterator 114 100 with
    activities := [],
    activityIndex := 0,
    untilDate := (newIterator 114 100).untilDate - 7 }

/-- Witness for C7 at concrete inputs: starting the iterator at week 114 with
since-bound 100, the empty week 114 is skipped transparently; under the
all-empty oracle the pull reports exhaustion; under the week-107 oracle the
pull yields that week's activity after one skip. -/
theorem iterator_skips_empty_weeks_witness :
    next witEnvWeek (newIterator 114 100) =
      ((next witEnvWeek witSkipState).1,
       (next witEnvWeek witSkipState).2.1,
       (newIterator 114 100).untilDate ::
         (next witEnvWeek witSkipState).2.2) ∧
    (next witEnvEmpty (newIterator 114 100)).1 = (zeroActivityInfo, false) ∧
    (next witEnvWeek (newIterator 114 100)).1 = (witActivity, true) :=
  ⟨iterator_skips_empty_weeks.1 witEnvWeek (newIterator 114 100)
     (by decide) (by decide) (by decide) (by decide),
   iterator_skips_empty_weeks.2.1 witEnvEmpty (newIterator 114 100)
     (by decide) (by decide) (fun w _ _ => rfl),
   iterator_skips_empty_weeks.2.2 witEnvWeek 1 (newIterator 114 100)
     witActivity [] (by decide) (by decide)
     (by intro j hj; interval_cases j; decide) (by decide) (by decide)⟩

/-- Witness for C8 at concrete inputs: an always-failing fetch oracle makes
the first pull return `(zero, false)` with the iterator marked done, and a
pull on the done iterator returns `(zero, false)` with no fetch. -/
theorem iterator_error_terminates_witness :
    next witEnvErr (newIterator 114 100) =
      ((zeroActivityInfo, false), { newIterator 114 100 with done := true },
       [(newIterator 114 100).untilDate]) ∧
    next witEnvErr { newIterator 114 100 with done := true } =
      ((zeroActivityInfo, false), { newIterator 114 100 with done := true }, []) :=
  ⟨iterator_error_terminates.1 witEnvErr (newIterator 114 100) "network down"
     (by decide) (by decide) (by decide) (by decide),
   iterator_error_terminates.2 witEnvErr
     { newIterator 114 100 with done := true } (by decide)⟩

/-! ### Cookie jar: empty-domain routing (C9)

The current `load` (`runalyze/cookie_jar.go`) routes every empty-domain entry
to `https://runalyze.com`; since `save` serializes `Jar.Cookies` output —
which carries name and value only — a save/load round trip moves every cookie
through that path.  The legacy `load` kept in the repository
(`unnamed/part_010`) instead skips empty-domain entries entirely, so the
round-trip property fails for it. -/

/-- C9 (amended, scoped to `runalyze/cookie_jar.go`): the current `load`
delivers all entries with an empty domain — in order — to the canonical
domain `https://runalyze.com` in one `SetCookies` call, and a `save` of the
jar's cookies (name/value pairs, hence empty domains) followed by `load`
routes every saved cookie there; the legacy `load` drops them instead (see
the counterexample). -/
theorem load_routes_empty_domain :
    (∀ (entries : List CookieEntry) (e : CookieEntry),
      e ∈ entries → e.domain = "" →
      ("https://runalyze.com", entries.filter (fun c => c.domain == "")) ∈
        load entries ∧
      e ∈ entries.filter (fun c => c.domain == "")) ∧
    (∀ jarCookies : List (String × String), jarCookies ≠ [] →
      load (save jarCookies) = [("https://runalyze.com", save jarCookies)]) := by
  constructor
  · intro entries e he hd
    have hmem : e ∈ entries.filter (fun c => c.domain == "") :=
      List.mem_filter.mpr ⟨he, by simp [hd]⟩
    have hlen : (entries.filter (fun c => c.domain == "")).length > 0 :=
      List.length_pos.mpr (List.ne_nil_of_mem hmem)
    refine ⟨?_, hmem⟩
    unfold load
    simp only [hlen, if_true]
    exact List.mem_append_right _ (by simp)
  · intro jarCookies hne
    have hall : ∀ c ∈ save jarCookies, (c.domain == "") = true := by
      intro c hc
      obtain ⟨nv, _, hnv⟩ := List.mem_map.mp hc
      rw [← hnv]
      rfl
    have hfilter : (save jarCookies).filter (fun c => c.domain == "") =
        save jarCookies := List.filter_eq_self.mpr hall
    have hexpl : explicitDomainCalls (save jarCookies) = [] := by
      unfold explicitDomainCalls explicitDomainKeys
      have : (save jarCookies).filter (fun c => c.domain ≠ "") = [] := by
        apply List.filter_eq_nil_iff.mpr
        intro c hc
        simp [show c.domain = "" by simpa using hall c hc]
      rw [this]
      rfl
    have hlen : ((save jarCookies).filter (fun c => c.domain == "")).length > 0 := by
      rw [hfilter]
      have : save jarCookies ≠ [] := by
        intro h
        exact hne (List.map_eq_nil_iff.mp h)
      exact List.length_pos.mpr this
    unfold load
    rw [hfilter] at hlen
    simp [hlen, hexpl, hfilter]

/-- An entry as the jar's own `save` produces it: empty domain. -/
def witEmptyDomainEntry : CookieEntry := nameValueCookie ("PHPSESSID", "secret")

/-- Counterexample to C9 as stated: the legacy `load` (`unnamed/part_010`,
cited by the claim) issues no `SetCookies` call at all for a session file
holding one empty-domain cookie — the entry is dropped, not routed to the
canonical domain. -/
theorem loadLegacy_drops_empty_domain :
    witEmptyDomainEntry.domain = "" ∧
    loadLegacy [witEmptyDomainEntry] = [] :=
  ⟨rfl, rfl⟩

/-- Witness for the amended C9 at concrete inputs. -/
theorem load_routes_empty_domain_witness :
    ("https://runalyze.com",
      List.filter (fun c => c.domain == "") [witEmptyDomainEntry]) ∈
      load [witEmptyDomainEntry] ∧
    load (save [("PHPSESSID", "secret")]) =
      [("https://runalyze.com", save [("PHPSESSID", "secret")])] :=
  ⟨(load_routes_empty_domain.1 [witEmptyDomainEntry] witEmptyDomainEntry
      (by decide) rfl).1,
   load_routes_empty_domain.2 [("PHPSESSID", "secret")] (by decide)⟩

end Syncwich
